import Mathlib

/-!
Verification development for the LLMPlotBot worker engine.

This file gives a shallow embedding, in Lean 4, of the pure logic of the
repository's core components and proves properties about it:

* `src/core/model_connector.py` — response repair cascade, schema
  normalization, batched sending with session history;
* `src/core/task_runner.py` — adaptive batch sizing and retry routing;
* `src/core/writer.py` — lock-protected read-merge-write of result
  documents (the file in the repository contains unresolved merge
  conflict markers; the embedding follows the HEAD side, which is the
  only resolution consistent with the surrounding non-conflicted code);
* `src/util/file_lock.py` — lock-file acquisition with stale reclaim.

Machine-level effects (actual HTTP, the filesystem, clocks, threads) are
represented by explicit oracle inputs / state records; Python `dict`s are
association lists with Python's insertion-order and equality semantics;
`json.loads` / `json.dumps` are modelled by an executable JSON parser and
printer over the fragment the program exchanges (objects, arrays,
strings without escape-heavy content, integers, booleans, null).
-/

namespace LLMPlotBot

/-! ### Python character / string helpers -/

/-- The opening brace character, `\x7b`. -/
def lbrace : Char := Char.ofNat 123

/-- The closing brace character, `\x7d`. -/
def rbrace : Char := Char.ofNat 125

/-- Python `str.strip()` whitespace: space, tab, LF, CR, VT, FF. -/
def isPyWs (c : Char) : Bool :=
  c = ' ' || c = '\t' || c = '\n' || c = '\r' || c = Char.ofNat 11 || c = Char.ofNat 12

/-- Strip the characters satisfying `p` from both ends of a list. -/
def stripListWith (p : Char → Bool) (l : List Char) : List Char :=
  ((l.dropWhile p).reverse.dropWhile p).reverse

/-- Python `str.strip()` on a character list. -/
def pyStripList (l : List Char) : List Char := stripListWith isPyWs l

/-- Python `str.strip()`. -/
def pyStrip (s : String) : String := String.mk (pyStripList s.toList)

/-- Python `str.find(c)` for a single character: index of the first
occurrence, if any. -/
def pyFind (c : Char) (l : List Char) : Option Nat :=
  l.findIdx? (fun x => x = c)

/-- Python `str.rfind(c)` for a single character: index of the last
occurrence, if any. -/
def pyRfind (c : Char) (l : List Char) : Option Nat :=
  match pyFind c l.reverse with
  | none => none
  | some i => some (l.length - 1 - i)

/-- Python slice `l[i : j+1]` on a character list. -/
def sliceIncl (l : List Char) (i j : Nat) : List Char :=
  (l.drop i).take (j + 1 - i)

/-! ### `ModelConnector._trim_to_json`

Faithful to `src/core/model_connector.py` lines 344–369: strip the text;
if it already starts and ends with JSON delimiters return it whole;
otherwise compute the first-`{`/last-`}` span and the first-`[`/last-`]`
span, collect the valid ones (object span first, as in the source), and
return the first candidate that is non-empty after stripping. -/

/-- Candidate spans of `_trim_to_json`, in the order the source builds
them: the brace-delimited span (when `start_obj != -1 and end_obj >
start_obj`) followed by the bracket-delimited span. -/
def trimCandidates (l : List Char) : List (List Char) :=
  let objPart :=
    match pyFind lbrace l, pyRfind rbrace l with
    | some i, some j => if i < j then [sliceIncl l i j] else []
    | _, _ => []
  let arrPart :=
    match pyFind '[' l, pyRfind ']' l with
    | some i, some j => if i < j then [sliceIncl l i j] else []
    | _, _ => []
  objPart ++ arrPart

/-- `ModelConnector._trim_to_json`.  `stripped[0]` and `stripped[-1]`
are `headD`/`getLastD` (the defaults are never used: the list is
non-empty on that branch). -/
def trim_to_json (text : String) : Option String :=
  let stripped := pyStripList text.toList
  if stripped.isEmpty then none
  else
    let first := stripped.headD ' '
    let lastC := stripped.getLastD ' '
    if (first = '[' || first = lbrace) && (lastC = ']' || lastC = rbrace) then
      some (String.mk stripped)
    else
      let picks := (trimCandidates stripped).filterMap
        (fun cand =>
          let cand' := pyStripList cand
          if cand'.isEmpty then none else some (String.mk cand'))
      picks.head?

/-! ### JSON values

Python's parsed-JSON universe, with explicit spine types for arrays and
objects so that all recursion below is structural.  Objects are
insertion-ordered key/value lists, exactly like Python dicts. -/

mutual

inductive JVal where
| jnull : JVal
| jbool (b : Bool) : JVal
| jnum (n : Int) : JVal
| jstr (s : String) : JVal
| jarr (xs : JArr) : JVal
| jobj (o : JObj) : JVal
deriving DecidableEq, Repr

inductive JArr where
| nil : JArr
| cons (v : JVal) (t : JArr) : JArr
deriving DecidableEq, Repr

inductive JObj where
| nil : JObj
| cons (k : String) (v : JVal) (t : JObj) : JObj
deriving DecidableEq, Repr

end

/-- Build an array spine from a list. -/
def JArr.ofList : List JVal → JArr
| [] => .nil
| v :: t => .cons v (JArr.ofList t)

/-- Flatten an array spine to a list. -/
def JArr.toList : JArr → List JVal
| .nil => []
| .cons v t => v :: JArr.toList t

/-- Number of elements of an array. -/
def JArr.length (a : JArr) : Nat := a.toList.length

/-- Build an object spine from an ordered key/value list. -/
def JObj.ofList : List (String × JVal) → JObj
| [] => .nil
| (k, v) :: t => .cons k v (JObj.ofList t)

/-- Flatten an object spine to its ordered key/value list. -/
def JObj.toList : JObj → List (String × JVal)
| .nil => []
| .cons k v t => (k, v) :: JObj.toList t

/-- Number of entries of an object (`len` of the Python dict). -/
def JObj.length : JObj → Nat
| .nil => 0
| .cons _ _ t => 1 + JObj.length t

/-- `d.get(k)`: value of the first entry with key `k`, if any. -/
def JObj.get : String → JObj → Option JVal
| _, .nil => none
| k, .cons k' v t => if k = k' then some v else JObj.get k t

/-- `d.get(k, default)`. -/
def JObj.getD (k : String) (dflt : JVal) (o : JObj) : JVal :=
  (JObj.get k o).getD dflt

/-- `k in d`. -/
def JObj.hasKey (k : String) (o : JObj) : Bool :=
  (JObj.get k o).isSome

/-- `d[k] = v`, with Python dict semantics: an existing key keeps its
position, a new key is appended at the end. -/
def JObj.set : String → JVal → JObj → JObj
| k, v, .nil => .cons k v .nil
| k, v, .cons k' v' t =>
  if k = k' then .cons k' v t else .cons k' v' (JObj.set k v t)

/-- `d.pop(k, None)`: remove the entry with key `k`, if present. -/
def JObj.erase : String → JObj → JObj
| _, .nil => .nil
| k, .cons k' v t => if k = k' then t else .cons k' v (JObj.erase k t)

/-- Python truthiness of a parsed-JSON value (`bool(v)`). -/
def pyTruthy : JVal → Bool
| .jnull => false
| .jbool b => b
| .jnum n => !(n = 0)
| .jstr s => !(s = "")
| .jarr .nil => false
| .jarr _ => true
| .jobj .nil => false
| .jobj _ => true

/-! Python `==` on parsed-JSON values: numbers and booleans compare by
numeric value (`True == 1`), lists elementwise in order, dicts by key
set and values with order ignored. -/

/-- Numeric value of a Python bool for `==` purposes. -/
def boolAsInt (b : Bool) : Int := if b then 1 else 0

mutual

/-- Python `==` on values. -/
def pyEq : JVal → JVal → Bool
| .jnull, .jnull => true
| .jbool a, .jbool b => a = b
| .jbool a, .jnum b => boolAsInt a = b
| .jnum a, .jbool b => a = boolAsInt b
| .jnum a, .jnum b => a = b
| .jstr a, .jstr b => a = b
| .jarr a, .jarr b => pyEqArr a b
| .jobj a, .jobj b => a.length = b.length && pyEqObjSub a b
| _, _ => false

/-- Python `==` on lists: same length, elementwise equal in order. -/
def pyEqArr : JArr → JArr → Bool
| .nil, .nil => true
| .cons v t, .cons w u => pyEq v w && pyEqArr t u
| _, _ => false

/-- Every entry of the first dict has a `pyEq`-equal value under the
same key in the second dict. -/
def pyEqObjSub : JObj → JObj → Bool
| .nil, _ => true
| .cons k v t, b =>
  (match JObj.get k b with
   | some w => pyEq v w
   | none => false) && pyEqObjSub t b

end

/-! ### `json.loads` (the fragment the program exchanges)

A recursive-descent parser mirroring Python's `json.loads` on objects,
arrays, double-quoted strings with the common escapes, integers,
`true`/`false`/`null`.  Inputs with floats or `\u` escapes are outside
the modelled fragment and fail.  A trailing non-whitespace remainder is
an error (Python's "Extra data"), and so is anything malformed. -/

/-- JSON whitespace accepted between tokens by `json.loads`. -/
def isJsonWs (c : Char) : Bool :=
  c = ' ' || c = '\t' || c = '\n' || c = '\r'

/-- Skip inter-token whitespace. -/
def skipWs (l : List Char) : List Char := l.dropWhile isJsonWs

/-- Parse the body of a JSON string after the opening quote; returns the
content and the remainder after the closing quote. -/
def parseStrBody : List Char → Option (List Char × List Char)
| [] => none
| c :: rest =>
  if c = '"' then some ([], rest)
  else if c = '\\' then
    match rest with
    | [] => none
    | e :: rest' =>
      let esc : Option Char :=
        if e = '"' then some '"'
        else if e = '\\' then some '\\'
        else if e = '/' then some '/'
        else if e = 'n' then some '\n'
        else if e = 't' then some '\t'
        else if e = 'r' then some '\r'
        else if e = 'b' then some (Char.ofNat 8)
        else if e = 'f' then some (Char.ofNat 12)
        else none
      match esc with
      | none => none
      | some ch =>
        match parseStrBody rest' with
        | some (s, r) => some (ch :: s, r)
        | none => none
  else
    match parseStrBody rest with
    | some (s, r) => some (c :: s, r)
    | none => none

/-- Digits prefix of `l` together with the remainder. -/
def takeDigits (l : List Char) : List Char × List Char :=
  (l.takeWhile Char.isDigit, l.dropWhile Char.isDigit)

/-- Numeric value of a digit list. -/
def digitsToNat (l : List Char) : Nat :=
  l.foldl (fun acc c => acc * 10 + (c.toNat - 48)) 0

/-- Parse a JSON integer (optional minus, no leading zeros, and no
float/exponent part, which is outside the modelled fragment). -/
def parseInt (l : List Char) : Option (Int × List Char) :=
  let (neg, l') :=
    match l with
    | c :: rest => if c = '-' then (true, rest) else (false, l)
    | [] => (false, l)
  let (ds, rest) := takeDigits l'
  match ds with
  | [] => none
  | d :: ds' =>
    if d = '0' && !ds'.isEmpty then none
    else
      match rest with
      | c :: _ =>
        if c = '.' || c = 'e' || c = 'E' then none
        else some (if neg then -(digitsToNat ds : Int) else (digitsToNat ds : Int), rest)
      | [] => some (if neg then -(digitsToNat ds : Int) else (digitsToNat ds : Int), rest)

mutual

/-- Parse one JSON value at the head of `l` (whitespace already
skipped). -/
def parseVal : Nat → List Char → Option (JVal × List Char)
| 0, _ => none
| _ + 1, [] => none
| fuel + 1, c :: rest =>
  if c = lbrace then
    parseObjBody fuel (skipWs rest)
  else if c = '[' then
    parseArrBody fuel (skipWs rest)
  else if c = '"' then
    match parseStrBody rest with
    | some (s, r) => some (.jstr (String.mk s), r)
    | none => none
  else if c = 't' then
    match rest with
    | 'r' :: 'u' :: 'e' :: r => some (.jbool true, r)
    | _ => none
  else if c = 'f' then
    match rest with
    | 'a' :: 'l' :: 's' :: 'e' :: r => some (.jbool false, r)
    | _ => none
  else if c = 'n' then
    match rest with
    | 'u' :: 'l' :: 'l' :: r => some (.jnull, r)
    | _ => none
  else if c = '-' || c.isDigit then
    match parseInt (c :: rest) with
    | some (n, r) => some (.jnum n, r)
    | none => none
  else none

/-- Parse the inside of an object, starting just after `{` (leading
whitespace skipped). -/
def parseObjBody : Nat → List Char → Option (JVal × List Char)
| 0, _ => none
| _ + 1, [] => none
| fuel + 1, c :: rest =>
  if c = rbrace then some (.jobj .nil, rest)
  else
    match parseObjItems fuel (c :: rest) with
    | some (o, r) => some (.jobj o, r)
    | none => none

/-- Parse a non-empty comma-separated member list of an object,
consuming the closing brace. -/
def parseObjItems : Nat → List Char → Option (JObj × List Char)
| 0, _ => none
| _ + 1, [] => none
| fuel + 1, c :: rest =>
  if c = '"' then
    match parseStrBody rest with
    | none => none
    | some (k, afterKey) =>
      match skipWs afterKey with
      | ':' :: afterColon =>
        match parseVal fuel (skipWs afterColon) with
        | none => none
        | some (v, afterVal) =>
          match skipWs afterVal with
          | ',' :: afterComma =>
            (match parseObjItems fuel (skipWs afterComma) with
             | some (o, r) => some (.cons (String.mk k) v o, r)
             | none => none)
          | d :: afterClose =>
            if d = rbrace then some (.cons (String.mk k) v .nil, afterClose)
            else none
          | [] => none
      | _ => none
  else none

/-- Parse the inside of an array, starting just after `[` (leading
whitespace skipped). -/
def parseArrBody : Nat → List Char → Option (JVal × List Char)
| 0, _ => none
| _ + 1, [] => none
| fuel + 1, c :: rest =>
  if c = ']' then some (.jarr .nil, rest)
  else
    match parseArrItems fuel (c :: rest) with
    | some (a, r) => some (.jarr a, r)
    | none => none

/-- Parse a non-empty comma-separated element list of an array,
consuming the closing bracket. -/
def parseArrItems : Nat → List Char → Option (JArr × List Char)
| 0, _ => none
| fuel + 1, l =>
  match parseVal fuel l with
  | none => none
  | some (v, afterVal) =>
    match skipWs afterVal with
    | ',' :: afterComma =>
      (match parseArrItems fuel (skipWs afterComma) with
       | some (a, r) => some (.cons v a, r)
       | none => none)
    | ']' :: afterClose => some (.cons v .nil, afterClose)
    | _ => none

end

/-- `json.loads`: parse one value, then only whitespace may remain. -/
def json_loads (s : String) : Option JVal :=
  let l := skipWs s.toList
  match parseVal (s.toList.length + 1) l with
  | none => none
  | some (v, rest) => if (skipWs rest).isEmpty then some v else none

/-! ### `json.dumps` with `separators=(",", ": ")` -/

/-- Escape a string for JSON output (the escapes the printer needs). -/
def jsonEscape (s : String) : String :=
  String.mk (s.toList.flatMap
    (fun c =>
      if c = '"' then ['\\', '"']
      else if c = '\\' then ['\\', '\\']
      else if c = '\n' then ['\\', 'n']
      else if c = '\t' then ['\\', 't']
      else if c = '\r' then ['\\', 'r']
      else [c]))

mutual

/-- `json.dumps(v, ensure_ascii=False, separators=(",", ": "))`. -/
def jdump : JVal → String
| .jnull => "null"
| .jbool true => "true"
| .jbool false => "false"
| .jnum n => toString n
| .jstr s => "\"" ++ jsonEscape s ++ "\""
| .jarr a => "[" ++ jdumpArr a ++ "]"
| .jobj o => String.mk [lbrace] ++ jdumpObj o ++ String.mk [rbrace]

/-- Comma-joined array elements. -/
def jdumpArr : JArr → String
| .nil => ""
| .cons v .nil => jdump v
| .cons v (.cons w t) => jdump v ++ "," ++ jdumpArr (.cons w t)

/-- Comma-joined `"key": value` members. -/
def jdumpObj : JObj → String
| .nil => ""
| .cons k v .nil => "\"" ++ jsonEscape k ++ "\": " ++ jdump v
| .cons k v (.cons k' w t) =>
  "\"" ++ jsonEscape k ++ "\": " ++ jdump v ++ "," ++ jdumpObj (.cons k' w t)

end

/-! ### `ModelConnector._repair_and_parse_json`

Faithful to `src/core/model_connector.py` lines 310–342: strip markdown
fences, try a direct parse of the trimmed cleaned text then of the
trimmed original, then re-separate smashed adjacent objects and parse as
an array, then regex-extract brace-delimited fragments and parse each
independently. -/

/-- The backtick character. -/
def btick : Char := Char.ofNat 96

/-- After a matched fence, consume an immediately following
case-insensitive `json` tag, if present (the `(?:json)?` group). -/
def dropJsonTag : List Char → List Char
| f :: g :: h :: i :: rest' =>
  if f.toLower = 'j' && g.toLower = 's' && h.toLower = 'o' && i.toLower = 'n' then rest'
  else f :: g :: h :: i :: rest'
| l => l

/-- One pass of `re.sub(r"```(?:json)?", "", text, flags=re.IGNORECASE)`:
each occurrence of three backticks, optionally followed immediately by
`json` in any case, is removed; the regex scan resumes after the match.
The fuel argument makes the recursion structural; every recursive call
strictly shortens the list, so fuel equal to the list length never runs
out. -/
def stripFencesF : Nat → List Char → List Char
| 0, l => l
| _ + 1, [] => []
| _ + 1, [c] => [c]
| _ + 1, [c, d] => [c, d]
| fuel + 1, c :: d :: e :: rest =>
  if c = btick && d = btick && e = btick then stripFencesF fuel (dropJsonTag rest)
  else c :: stripFencesF fuel (d :: e :: rest)

/-- The fence-removal pass at full fuel. -/
def stripFences (l : List Char) : List Char := stripFencesF l.length l

/-- `str.replace("```", "")`: remove every occurrence of three
backticks, scanning left to right. -/
def removeTriple : List Char → List Char
| [] => []
| [c] => [c]
| [c, d] => [c, d]
| c :: d :: e :: rest =>
  if c = btick && d = btick && e = btick then removeTriple rest
  else c :: removeTriple (d :: e :: rest)

/-- Regex whitespace class `\s`. -/
def isRegexWs (c : Char) : Bool :=
  c = ' ' || c = '\t' || c = '\n' || c = '\r' || c = Char.ofNat 11 || c = Char.ofNat 12

/-- Match `\s*\{` at the head of the list, returning the remainder after
the opening brace. -/
def wsThenLbrace : List Char → Option (List Char)
| [] => none
| c :: rest =>
  if c = lbrace then some rest
  else if isRegexWs c then wsThenLbrace rest
  else none

/-- `re.sub(r"}\s*{", "},{", text)`: replace every non-overlapping
occurrence of a closing brace, optional whitespace, opening brace by
`},{` (fuel-structural; each recursive call strictly shortens the
list). -/
def squashF : Nat → List Char → List Char
| 0, l => l
| _ + 1, [] => []
| fuel + 1, c :: rest =>
  if c = rbrace then
    match wsThenLbrace rest with
    | some rest' => rbrace :: ',' :: lbrace :: squashF fuel rest'
    | none => c :: squashF fuel rest
  else c :: squashF fuel rest

/-- The `}\s*{` separator pass at full fuel. -/
def squash (l : List Char) : List Char := squashF l.length l

/-- Content of a minimal brace fragment: consume non-brace characters up
to a closing brace, returning the content and the remainder; fail on a
nested opening brace or end of input (mirrors `[^{}]*\}` after the
opening brace). -/
def fragTail : List Char → Option (List Char × List Char)
| [] => none
| c :: rest =>
  if c = rbrace then some ([], rest)
  else if c = lbrace then none
  else
    match fragTail rest with
    | some (content, r) => some (c :: content, r)
    | none => none

/-- `re.findall(r"\{[^{}]*\}", text)`: all non-overlapping minimal
brace-delimited fragments, left to right, braces included
(fuel-structural; each recursive call strictly shortens the list). -/
def findFragsF : Nat → List Char → List (List Char)
| 0, _ => []
| _ + 1, [] => []
| fuel + 1, c :: rest =>
  if c = lbrace then
    match fragTail rest with
    | some (content, rest') =>
      (lbrace :: (content ++ [rbrace])) :: findFragsF fuel rest'
    | none => findFragsF fuel rest
  else findFragsF fuel rest

/-- The fragment scan at full fuel. -/
def findFrags (l : List Char) : List (List Char) := findFragsF l.length l

/-- Direct-parse attempt of one candidate inside
`_repair_and_parse_json`: trim to the JSON span and `json.loads` it. -/
def tryDirectParse (candidate : String) : Option JVal :=
  if candidate = "" then none
  else
    match trim_to_json candidate with
    | some normalized => json_loads normalized
    | none => none

/-- `ModelConnector._repair_and_parse_json`. -/
def repair_and_parse_json (text : String) : Option JVal :=
  let original := pyStrip text
  let fence_cleaned :=
    String.mk (pyStripList (removeTriple (stripFences original.toList)))
  match tryDirectParse fence_cleaned with
  | some v => some v
  | none =>
    match tryDirectParse original with
    | some v => some v
    | none =>
      let squashed := squash fence_cleaned.toList
      let viaSquash :=
        if squashed ≠ fence_cleaned.toList then
          json_loads (String.mk ('[' :: (squashed ++ [']'])))
        else none
      match viaSquash with
      | some v => some v
      | none =>
        let parsed := (findFrags fence_cleaned.toList).filterMap
          (fun f => json_loads (String.mk f))
        if parsed.isEmpty then none else some (.jarr (JArr.ofList parsed))

/-! ### Python `str()` / `repr()` on parsed-JSON values

`_coerce_to_string` falls back to `str(value)` for values that are not
`None`/`str`/`int`/`float`; for containers this is Python's `repr`.
String members are rendered with the single-quote form `'s'` (the common
case; quote-switching for embedded quotes is outside the fragment the
program produces). -/

mutual

/-- Python `repr` of a parsed-JSON value. -/
def pyRepr : JVal → String
| .jnull => "None"
| .jbool true => "True"
| .jbool false => "False"
| .jnum n => toString n
| .jstr s => "'" ++ s ++ "'"
| .jarr a => "[" ++ pyReprArr a ++ "]"
| .jobj o => String.mk [lbrace] ++ pyReprObj o ++ String.mk [rbrace]

/-- Comma-joined element reprs. -/
def pyReprArr : JArr → String
| .nil => ""
| .cons v .nil => pyRepr v
| .cons v (.cons w t) => pyRepr v ++ ", " ++ pyReprArr (.cons w t)

/-- Comma-joined `'key': value` member reprs. -/
def pyReprObj : JObj → String
| .nil => ""
| .cons k v .nil => "'" ++ k ++ "': " ++ pyRepr v
| .cons k v (.cons k' w t) =>
  "'" ++ k ++ "': " ++ pyRepr v ++ ", " ++ pyReprObj (.cons k' w t)

end

/-- Python `str()` of a parsed-JSON value. -/
def pyStr : JVal → String
| .jstr s => s
| v => pyRepr v

/-! ### `ModelConnector` schema coercion

Faithful to `src/core/model_connector.py` lines 560–606 and 382–441. -/

/-- `ModelConnector.REQUIRED_KEYS` (a Python set; the iteration order
used while filling `normalized` does not affect the result, whose key
order is canonicalized at the end of `_normalize_payload`). -/
def REQUIRED_KEYS : List String :=
  ["core_event", "themes", "tone", "conflict_type", "stakes",
   "setting_hint", "characters", "potential_story_hooks"]

/-- `ModelConnector.LIST_KEYS`. -/
def LIST_KEYS : List String := ["themes", "characters", "potential_story_hooks"]

/-- `ModelConnector._coerce_to_string`.  Note Python's `bool` is a
subclass of `int`, so booleans take the `isinstance(value, (int,
float))` branch and stringify to `True`/`False` with `replaced =
False`. -/
def coerce_to_string : JVal → String × Bool
| .jnull => ("", true)
| .jstr s =>
  let stripped := pyStrip s
  (stripped, stripped = "")
| .jnum n => (toString n, false)
| .jbool b => (pyStr (.jbool b), false)
| v =>
  let text := pyStrip (pyStr v)
  (text, text = "")

/-- Separator class of `re.split(r"[,;\n]+", ...)`. -/
def isSepChar (c : Char) : Bool := c = ',' || c = ';' || c = '\n'

/-- `ModelConnector._coerce_to_list` (the returned list is the Python
list of strings; the `key` argument is only used for logging). -/
def coerce_to_list : JVal → List String × Bool
| .jnull => ([], true)
| .jarr a =>
  a.toList.foldl
    (fun (acc : List String × Bool) item =>
      let (coerced, item_replaced) := coerce_to_string item
      ((if coerced ≠ "" then acc.1 ++ [coerced] else acc.1), acc.2 || item_replaced))
    ([], false)
| .jstr s =>
  let stripped := pyStrip s
  if stripped = "" then ([], true)
  else
    let parts := ((stripped.split isSepChar).map pyStrip).filter (fun p => p ≠ "")
    (parts, parts.isEmpty)
| .jnum n => ([toString n], false)
| .jbool b => ([pyStr (.jbool b)], false)
| v =>
  let (coerced, item_replaced) := coerce_to_string v
  ((if coerced ≠ "" then [coerced] else []), item_replaced)

/-- Lexicographic-by-code-point string comparison (what Python's
`sorted` uses on `str`). -/
def charListLe : List Char → List Char → Bool
| [], _ => true
| _ :: _, [] => false
| a :: as, b :: bs =>
  if a.toNat < b.toNat then true
  else if b.toNat < a.toNat then false
  else charListLe as bs

/-- `a <= b` on strings by code point. -/
def pyStrLe (a b : String) : Bool := charListLe a.toList b.toList

/-- Stable insertion into a key-sorted association list. -/
def insertByKey (kv : String × JVal) : List (String × JVal) → List (String × JVal)
| [] => [kv]
| x :: t => if pyStrLe kv.1 x.1 then kv :: x :: t else x :: insertByKey kv t

/-- `sorted(d)`-ordered entries of an object (Python sorts the keys
lexicographically by code point; keys here are unique). -/
def sortByKey (l : List (String × JVal)) : List (String × JVal) :=
  l.foldr insertByKey []

/-- `ModelConnector._normalize_payload`: coerce every required key,
pass extra keys through, type-check the required keys, and emit
`core_event` first followed by the remaining keys in sorted order. -/
def normalize_payload : JVal → Option JObj
| .jobj p =>
  let normalized : JObj := REQUIRED_KEYS.foldl
    (fun acc key =>
      if LIST_KEYS.contains key then
        let lst := (coerce_to_list (JObj.getD key .jnull p)).1
        JObj.set key (.jarr (JArr.ofList (lst.map JVal.jstr))) acc
      else
        JObj.set key (.jstr (coerce_to_string (JObj.getD key .jnull p)).1) acc)
    .nil
  let withExtras : JObj := p.toList.foldl
    (fun acc kv => if acc.hasKey kv.1 then acc else JObj.set kv.1 kv.2 acc)
    normalized
  let stringOk := (REQUIRED_KEYS.filter (fun k => !LIST_KEYS.contains k)).all
    (fun k => match JObj.get k withExtras with
      | some (.jstr _) => true
      | _ => false)
  let listOk := LIST_KEYS.all
    (fun k => match JObj.get k withExtras with
      | some (.jarr _) => true
      | _ => false)
  if stringOk && listOk then
    let rest := sortByKey ((withExtras.erase "core_event").toList)
    match JObj.get "core_event" withExtras with
    | some v => some (JObj.cons "core_event" v (JObj.ofList rest))
    | none => some (JObj.ofList rest)
  else none
| _ => none

/-! ### `ModelConnector` session state and `send_batch`

The HTTP call and the backend's reply are an oracle input (`NetResult`);
everything after the wire is modelled from the source.  The connector is
embedded in its default configuration `expected_language=None`, in which
the optional language checker is disabled (`_language_checker is None`),
so the two language steps of `send_batch` are no-ops. -/

/-- One chat message. -/
structure Msg where
  role : String
  content : String
deriving DecidableEq, Repr

/-- The classified request-level error stored in
`_last_request_error`. -/
inductive RequestError where
| transportError : RequestError
| httpError (status : Nat) : RequestError
deriving DecidableEq, Repr

/-- The outcome of `self._http.post(...)`: a raised
`requests.RequestException`, or a response with a status code and a
body. -/
inductive NetResult where
| exc : NetResult
| resp (status : Nat) (body : String) : NetResult
deriving DecidableEq, Repr

/-- The mutable state of a `ModelConnector` (default configuration). -/
structure ConnState where
  session_messages : List Msg
  history : List Msg
  history_limit : Nat
  active : Bool
  headline_counter : Nat
  auto_compliance_reminders : Nat
  manual_compliance_reminders : Nat
  array_warning_count : Nat
  compliance_interval : Nat
  last_request_error : Option RequestError
deriving DecidableEq, Repr

/-- `ModelConnector.JSON_ONLY_INSTRUCTION`. -/
def JSON_ONLY_INSTRUCTION : String :=
  "Return only the JSON object described. No extra text."

/-- Replace runs of characters satisfying `p` by a single `repl`
(fuel-structural; each recursive call strictly shortens the list). -/
def subRunsWithF (p : Char → Bool) (repl : Char) : Nat → List Char → List Char
| 0, l => l
| _ + 1, [] => []
| fuel + 1, c :: rest =>
  if p c then repl :: subRunsWithF p repl fuel (rest.dropWhile p)
  else c :: subRunsWithF p repl fuel rest

/-- Run replacement at full fuel. -/
def subRunsWith (p : Char → Bool) (repl : Char) (l : List Char) : List Char :=
  subRunsWithF p repl l.length l

/-- Replace runs of two or more regex-whitespace characters by a single
space, leaving single whitespace characters alone
(`re.sub(r"\s{2,}", " ", text)`; fuel-structural). -/
def collapseWsRunsF : Nat → List Char → List Char
| 0, l => l
| _ + 1, [] => []
| _ + 1, [c] => [c]
| fuel + 1, c :: d :: rest =>
  if isRegexWs c && isRegexWs d then
    ' ' :: collapseWsRunsF fuel ((d :: rest).dropWhile isRegexWs)
  else c :: collapseWsRunsF fuel (d :: rest)

/-- Whitespace-run collapsing at full fuel. -/
def collapseWsRuns (l : List Char) : List Char := collapseWsRunsF l.length l

/-- `clean_prompt_text` (module level in `model_connector.py`):
collapse `[\n\r\t]+` runs to a space, collapse remaining whitespace
runs, strip. -/
def clean_prompt_text (text : String) : String :=
  let step1 := subRunsWith (fun c => c = '\n' || c = '\r' || c = '\t') ' ' text.toList
  let step2 := collapseWsRuns step1
  String.mk (pyStripList step2)

/-- `str.replace("\r\n", "\n")` followed by `str.replace("\r", "\n")`
(fused single pass, which computes the same function). -/
def normalizeNewlines : List Char → List Char
| [] => []
| '\r' :: '\n' :: r => '\n' :: normalizeNewlines r
| '\r' :: rest => '\n' :: normalizeNewlines rest
| c :: rest => c :: normalizeNewlines rest

/-- `ModelConnector._normalise_prompt_section`. -/
def normalise_prompt_section (section' : String) : String :=
  String.mk (pyStripList (normalizeNewlines section'.toList))

/-- `ModelConnector.start_session`. -/
def start_session (st : ConnState) (prompt_dynamic prompt_formatting : String) :
    ConnState :=
  let dynamic := normalise_prompt_section prompt_dynamic
  let formatting := normalise_prompt_section prompt_formatting
  let msgs := [Msg.mk "system" JSON_ONLY_INSTRUCTION]
    ++ (if dynamic ≠ "" then [Msg.mk "user" dynamic] else [])
    ++ (if formatting ≠ "" then [Msg.mk "user" formatting] else [])
  { st with
    session_messages := msgs
    history := []
    active := true
    headline_counter := 0 }

/-- `ModelConnector.close_session`. -/
def close_session (st : ConnState) : ConnState :=
  { st with
    session_messages := []
    history := []
    headline_counter := 0
    active := false }

/-- `ModelConnector._prune_history`: keep only the most recent
`history_limit` messages. -/
def prune_history (limit : Nat) (h : List Msg) : List Msg :=
  if limit = 0 then h
  else
    let overflow := h.length - limit
    if overflow > 0 then h.drop overflow else h

/-- `ModelConnector._maybe_send_auto_compliance_reminder`. -/
def maybe_send_auto_compliance_reminder (st : ConnState) : ConnState :=
  if !st.active || st.compliance_interval = 0 then st
  else if st.headline_counter ≠ 0 &&
      st.headline_counter % st.compliance_interval = 0 then
    { st with
      history := prune_history st.history_limit
        (st.history ++ [Msg.mk "user" JSON_ONLY_INSTRUCTION])
      auto_compliance_reminders := st.auto_compliance_reminders + 1 }
  else st

/-- `ModelConnector.reinforce_compliance`. -/
def reinforce_compliance (st : ConnState) : ConnState :=
  if !st.active then st
  else
    { st with
      history := prune_history st.history_limit
        (st.history ++ [Msg.mk "user" JSON_ONLY_INSTRUCTION])
      manual_compliance_reminders := st.manual_compliance_reminders + 1 }

/-- `ModelConnector._normalise_response_content`. -/
def normalise_response_content (entries : List JObj) : String :=
  jdump (.jarr (JArr.ofList (entries.map JVal.jobj)))

/-- `ModelConnector._extract_response_entries`: parse the HTTP body as
the chat-completion envelope, pull out
`payload["choices"][0]["message"]["content"]` (any failure is caught
and yields `None`), then run the repair cascade and keep the dict
entries. -/
def extract_response_entries (raw_text : String) : Option (List JObj) × String :=
  match json_loads raw_text with
  | none => (none, "")
  | some payload =>
    let content? : Option String :=
      match payload with
      | .jobj o =>
        match JObj.get "choices" o with
        | some (.jarr (.cons (.jobj m1) _)) =>
          match JObj.get "message" m1 with
          | some (.jobj m2) =>
            match JObj.get "content" m2 with
            | some (.jstr s) => some (pyStrip s)
            | _ => none
          | _ => none
        | _ => none
      | _ => none
    match content? with
    | none => (none, "")
    | some content =>
      let entries : Option (List JObj) :=
        match repair_and_parse_json content with
        | some (.jobj o) => some [o]
        | some (.jarr xs) =>
          let ds := xs.toList.filterMap
            (fun v => match v with | .jobj o => some o | _ => none)
          if ds.isEmpty then none else some ds
        | _ => none
      match entries with
      | some es => (some es, normalise_response_content es)
      | none => (none, content)

/-- `ModelConnector.send_batch` on an active session; the HTTP exchange
is the `net` oracle.  Returns the value `send_batch` returns and the
connector state afterwards. -/
def send_batch (st0 : ConnState) (headlines : List String) (net : NetResult) :
    Option (List (Option JObj)) × ConnState :=
  if headlines.isEmpty then (some [], st0)
  else
    let st1 := maybe_send_auto_compliance_reminder st0
    let start_index := st1.headline_counter + 1
    let numbered_lines := headlines.enum.map
      (fun p => toString (start_index + p.1) ++ ". " ++ clean_prompt_text p.2)
    let user_message := Msg.mk "user" (String.intercalate "\n" numbered_lines)
    let st2 := { st1 with last_request_error := none }
    match net with
    | .exc => (none, { st2 with last_request_error := some .transportError })
    | .resp status body =>
      let raw_text := pyStrip body
      if status ≥ 400 then
        (none, { st2 with last_request_error := some (.httpError status) })
      else
        match extract_response_entries raw_text with
        | (none, _) => (none, st2)
        | (some parsed_entries, content_text) =>
          let n := headlines.length
          let results : List (Option JObj) :=
            (parsed_entries.take n).map (fun e => normalize_payload (.jobj e))
              ++ List.replicate (n - parsed_entries.length) none
          let st3 :=
            if parsed_entries.length > n then
              { st2 with array_warning_count := st2.array_warning_count + 1 }
            else st2
          let success_count := (results.filterMap id).length
          let st4 :=
            if success_count > 0 then
              { st3 with
                history := prune_history st3.history_limit
                  (st3.history ++ [user_message, Msg.mk "assistant" content_text])
                headline_counter := st3.headline_counter + success_count }
            else st3
          (some results, st4)

/-! ### `TaskRunner._process_model_tasks` (`src/core/task_runner.py` 170–339)

One iteration of the per-model `while pending:` loop, as a pure step
function.  The connector call is the `BatchOutcome` oracle; the shared
shutdown flag is sampled once per step (the loop-head check that ends
the run is the caller's, line 227).  Metric recording (`_finalize` /
`_record_task_metrics`) is modelled as appending `(id, success,
attempts)` events; writes are the `(id, prompt_hash)` events routed to
the writer. -/

/-- The fields of a `Task` the runner logic reads. -/
structure RTask where
  id : String
  title : String
  prompt_hash : String
deriving DecidableEq, Repr

/-- Result of `connector.send_batch` as the runner classifies it:
`requestError` is `None` with `pop_last_request_error()` non-`None`
(transport/HTTP), `parseFailure` is `None` without a stored error, and
`ok` is a real list of per-item payloads. -/
inductive BatchOutcome where
| requestError : BatchOutcome
| parseFailure : BatchOutcome
| ok (payloads : List (Option JObj)) : BatchOutcome
deriving DecidableEq, Repr

/-- Mutable state of one `_process_model_tasks` run. -/
structure RunnerState where
  pending : List RTask
  attempts : String → Nat
  current_batch_size : Nat
  success_streak : Nat
  finalized : List (String × Bool × Nat)
  written : List (String × String)
  manual_reminders : Nat

/-- Initial state of `_process_model_tasks` (lines 180–184): the pending
queue is the task list, no attempt states exist, the current batch size
starts at the configured maximum `self.batch_size = max(1, batch_size)`,
and the success streak is zero. -/
def initRunnerState (tasks : List RTask) (batch_size : Nat) : RunnerState :=
  { pending := tasks
    attempts := fun _ => 0
    current_batch_size := max 1 batch_size
    success_streak := 0
    finalized := []
    written := []
    manual_reminders := 0 }

/-- Lines 265–266: every task of the batch has its attempt count
incremented. -/
def bumpAttempts (batch : List RTask) (f : String → Nat) : String → Nat :=
  batch.foldl (fun g t => fun tid => if tid = t.id then g tid + 1 else g tid) f

/-- Lines 302–317: split the retry queue into the tasks re-queued for
another attempt and the `(id, success:=false, attempts)` finalizations
(under shutdown, or at/above the retry limit, a failed task is
finalized). -/
def routeFailed (shutdown : Bool) (retry_limit : Nat) (attempts : String → Nat) :
    List RTask → List RTask × List (String × Bool × Nat)
| [] => ([], [])
| t :: rest =>
  let (still, fin) := routeFailed shutdown retry_limit attempts rest
  if shutdown then (still, (t.id, false, attempts t.id) :: fin)
  else if attempts t.id < retry_limit then (t :: still, fin)
  else (still, (t.id, false, attempts t.id) :: fin)

/-- Line 234: `batch_size = max(1, min(current_batch_size,
len(pending)))`, the prefix taken as this iteration's batch. -/
def currentBatch (st : RunnerState) : List RTask :=
  st.pending.take (max 1 (min st.current_batch_size st.pending.length))

/-- The untouched fresh work left in the queue after the batch is
taken. -/
def remainingAfterBatch (st : RunnerState) : List RTask :=
  st.pending.drop (max 1 (min st.current_batch_size st.pending.length))

/-- Lines 255–263: the per-item responses for a batch of `n` items:
`None` for every item when `send_batch` returned `None`, otherwise the
returned list defensively truncated/padded to length `n`. -/
def alignedResponses (outcome : BatchOutcome) (n : Nat) : List (Option JObj) :=
  match outcome with
  | .ok ps =>
    if ps.length = n then ps
    else ps.take n ++ List.replicate (n - ps.length) none
  | _ => List.replicate n none

/-- The batch items paired positionally with their responses (lines
269 and 255–263). -/
def batchPairs (st : RunnerState) (outcome : BatchOutcome) :
    List (RTask × Option JObj) :=
  (currentBatch st).zip (alignedResponses outcome (currentBatch st).length)

/-- Lines 268–273: the tasks whose payload was `None`. -/
def retryQueueOf (st : RunnerState) (outcome : BatchOutcome) : List RTask :=
  ((batchPairs st outcome).filter (fun p => p.2 = none)).map Prod.fst

/-- Lines 269–278: the tasks whose payload was a record (routed to the
writer and finalized as successes). -/
def succeededOf (st : RunnerState) (outcome : BatchOutcome) : List RTask :=
  (batchPairs st outcome).filterMap
    (fun p => match p.2 with | some _ => some p.1 | none => none)

/-- Lines 234–333: one iteration of the batch loop.  `shutdown` is the
value of the shared flag during the iteration; `outcome` is what the
connector returned for this batch. -/
def processBatch (retry_limit max_batch : Nat) (shutdown : Bool)
    (st : RunnerState) (outcome : BatchOutcome) : RunnerState :=
  let batch := currentBatch st
  let rest := remainingAfterBatch st
  let request_error : Bool :=
    match outcome with
    | .requestError => true
    | _ => false
  let attempts1 := bumpAttempts batch st.attempts
  let retry_queue := retryQueueOf st outcome
  let succeeded := succeededOf st outcome
  let written1 := st.written ++ succeeded.map (fun t => (t.id, t.prompt_hash))
  let finalized1 := st.finalized ++ succeeded.map (fun t => (t.id, true, attempts1 t.id))
  if retry_queue.isEmpty then
    let streak1 := st.success_streak + 1
    if streak1 ≥ 2 && st.current_batch_size < max_batch && !request_error then
      { st with
        pending := rest
        attempts := attempts1
        written := written1
        finalized := finalized1
        current_batch_size := min max_batch (st.current_batch_size + 1)
        success_streak := 0 }
    else
      { st with
        pending := rest
        attempts := attempts1
        written := written1
        finalized := finalized1
        success_streak := streak1 }
  else
    let routed := routeFailed shutdown retry_limit attempts1 retry_queue
    let finalized2 := finalized1 ++ routed.2
    if !routed.1.isEmpty && !shutdown then
      let newSize :=
        if request_error && retry_queue.length = batch.length
            && st.current_batch_size > 1 then
          max 1 (st.current_batch_size / 2)
        else st.current_batch_size
      { st with
        pending := routed.1 ++ rest
        attempts := attempts1
        written := written1
        finalized := finalized2
        current_batch_size := newSize
        success_streak := 0
        manual_reminders := st.manual_reminders + 1 }
    else
      { st with
        pending := rest
        attempts := attempts1
        written := written1
        finalized := finalized2
        success_streak := 0 }

/-! ### `FileLock` (`src/util/file_lock.py`)

The lock is a sidecar file; the filesystem state is its mtime, if it
exists.  `acquire` loops: exclusive-create succeeds when no file exists;
on `FileExistsError` a stale file (age at least `stale_seconds`) is
unlinked and the loop retries immediately, otherwise the loop raises
`FileLockTimeout` past the deadline or sleeps `poll_interval`.  Time
advances only by the poll sleeps (single acquirer, no interference). -/

/-- The lock sidecar file: its mtime when it exists. -/
structure LockFS where
  lockMtime : Option Int
deriving DecidableEq, Repr

/-- `FileLock._is_stale`: a missing file is not stale
(`FileNotFoundError → False`); otherwise stale iff
`now - mtime >= stale_seconds`. -/
def is_stale (stale_seconds now : Int) (fs : LockFS) : Bool :=
  match fs.lockMtime with
  | none => false
  | some m => stale_seconds ≤ now - m

/-- What one iteration of the `acquire` loop does. -/
inductive LockStep where
| acquired (fs : LockFS) : LockStep
| clearedStale (fs : LockFS) : LockStep
| waitPoll (fs : LockFS) : LockStep
| timedOut (fs : LockFS) : LockStep
deriving DecidableEq, Repr

/-- One iteration of `FileLock.acquire` (lines 36–48): exclusive-create,
else clear a stale lock and continue, else raise past the deadline,
else sleep and poll again. -/
def acquireIter (stale_seconds deadline now : Int) (fs : LockFS) : LockStep :=
  match fs.lockMtime with
  | none => .acquired { lockMtime := some now }
  | some _ =>
    if is_stale stale_seconds now fs then .clearedStale { lockMtime := none }
    else if deadline ≤ now then .timedOut fs
    else .waitPoll fs

/-- The `acquire` loop with fuel; `some (true, fs)` is a successful
acquisition, `some (false, fs)` the `FileLockTimeout`. -/
def acquireLoop (stale_seconds deadline poll : Int) :
    Nat → Int → LockFS → Option (Bool × LockFS)
| 0, _, _ => none
| fuel + 1, now, fs =>
  match acquireIter stale_seconds deadline now fs with
  | .acquired fs' => some (true, fs')
  | .clearedStale fs' => acquireLoop stale_seconds deadline poll fuel now fs'
  | .timedOut fs' => some (false, fs')
  | .waitPoll fs' => acquireLoop stale_seconds deadline poll fuel (now + poll) fs'

/-! ### `ResultWriter._write_batch` (`src/core/writer.py` 168–211, HEAD
resolution)

The outcome of each successive `_persist_records` call is an oracle.
The loop makes at most `flush_retry_limit` calls; `FileLockTimeout` is
caught every time (returning 0 once attempts are exhausted); any other
exception is re-raised only on the last attempt. -/

/-- Outcome of one `_persist_records` call. -/
inductive PersistOutcome where
| success (written : Nat) : PersistOutcome
| lockTimeout : PersistOutcome
| otherError : PersistOutcome
deriving DecidableEq, Repr

/-- An exception escaping `_write_batch`. -/
inductive WriterError where
| fileLockTimeout : WriterError
| other : WriterError
deriving DecidableEq, Repr

/-- The retry loop of `_write_batch`: `remaining` is
`attempts_remaining` after the decrement at the top of the body;
`calls` counts `_persist_records` calls made so far.  Returns the
returned value or the escaping exception, together with the total call
count. -/
def write_batch_loop (oracle : Nat → PersistOutcome) :
    Nat → Nat → Except WriterError Nat × Nat
| 0, calls => (.ok 0, calls)
| remaining + 1, calls =>
  match oracle calls with
  | .success n => (.ok n, calls + 1)
  | .lockTimeout =>
    if remaining = 0 then (.ok 0, calls + 1)
    else write_batch_loop oracle remaining (calls + 1)
  | .otherError =>
    if remaining = 0 then (.error .other, calls + 1)
    else write_batch_loop oracle remaining (calls + 1)

/-- `ResultWriter._write_batch` with `flush_retry_limit` attempts. -/
def write_batch (flush_retry_limit : Nat) (oracle : Nat → PersistOutcome) :
    Except WriterError Nat × Nat :=
  write_batch_loop oracle flush_retry_limit 0

/-! ### `ResultWriter._persist_records` (`src/core/writer.py` 214–356,
HEAD resolution)

The read-merge-write under the file lock, as a pure function from the
current on-disk content (`none`: file missing or unreadable) and the
record batch to the document atomically renamed into place.  In Python
`models_section` and `model_entry` alias into `data`; the embedding
threads the updated values explicitly, which yields the same final
dict.  (The non-dict `model_entry` repair branch of the conflicted
region names `record_model`; under the HEAD resolution this is the loop
variable `model`, which is how it is modelled.) -/

def persist_records (data0 : Option JVal) (records : List (String × String × JObj)) :
    JVal :=
  let data : JObj :=
    match data0 with
    | some (.jobj o) => o
    | _ => .nil
  let existing_title := JObj.getD "title" (.jstr "") data
  let data1 :=
    if (JObj.get "llm_models" data).isSome then data
    else JObj.set "llm_models" (.jobj .nil) data
  let models0 : JObj :=
    match JObj.get "llm_models" data with
    | some (.jobj o) => o
    | _ => .nil
  let step := fun (acc : JVal × JObj) (r : String × String × JObj) =>
    let title := JObj.getD "title" (.jstr "") r.2.2
    let chosen' := if pyTruthy title && !pyTruthy acc.1 then title else acc.1
    let payload := JObj.erase "title" r.2.2
    let entry : JObj :=
      match JObj.get r.1 acc.2 with
      | some (.jobj e) => e
      | _ => .nil
    (chosen', JObj.set r.1 (.jobj (JObj.set r.2.1 (.jobj payload) entry)) acc.2)
  let merged := records.foldl step (existing_title, models0)
  let data2 := JObj.set "llm_models" (.jobj merged.2) data1
  let data3 := if pyTruthy merged.1 then JObj.set "title" merged.1 data2 else data2
  .jobj (JObj.cons "title" (JObj.getD "title" (.jstr "") data3)
    (JObj.cons "llm_models" (JObj.getD "llm_models" (.jobj .nil) data3)
      (JObj.ofList (data3.toList.filter
        (fun kv => !(kv.1 = "title") && !(kv.1 = "llm_models"))))))

/-- `ResultWriter.write` for one record under the immediate strategy:
one buffered entry, flushed at once, persisted over the current document
content. -/
def write_result (doc : Option JVal) (model prompt_hash : String) (response : JObj) :
    JVal :=
  persist_records doc [(model, prompt_hash, response)]

/-- No string occurs twice in the list (dict keys are unique). -/
def noDupKeys : List String → Bool
| [] => true
| k :: t => !(t.contains k) && noDupKeys t

/-- The keys of an object, in order. -/
def JObj.keys : JObj → List String
| .nil => []
| .cons k _ t => k :: JObj.keys t

mutual

/-- A parsed-JSON value is well-formed when every object in it has
unique keys — the invariant of every value that comes out of a Python
dict. -/
def wfB : JVal → Bool
| .jnull => true
| .jbool _ => true
| .jnum _ => true
| .jstr _ => true
| .jarr a => wfArr a
| .jobj o => noDupKeys o.keys && wfObj o

/-- All elements well-formed. -/
def wfArr : JArr → Bool
| .nil => true
| .cons v t => wfB v && wfArr t

/-- All values well-formed. -/
def wfObj : JObj → Bool
| .nil => true
| .cons _ v t => wfB v && wfObj t

end

/-- The title stored by two successive merges: the existing document
title wins when non-empty, otherwise a truthy incoming title is
adopted. -/
def mergedTitle (existing incoming : JVal) : JVal :=
  if pyTruthy existing then existing
  else if pyTruthy incoming then incoming
  else existing

/-- A concrete connector state used for concrete instances: an active
session whose headline counter (1) is a non-zero multiple of the
compliance interval (1), so the next `send_batch` call appends the
automatic compliance reminder before the request. -/
def c6State : ConnState :=
  { session_messages := [Msg.mk "system" JSON_ONLY_INSTRUCTION]
    history := []
    history_limit := 50
    active := true
    headline_counter := 1
    auto_compliance_reminders := 0
    manual_compliance_reminders := 0
    array_warning_count := 0
    compliance_interval := 1
    last_request_error := none }

/-- Concrete tasks for concrete runner instances. -/
def c3Task1 : RTask := { id := "t1", title := "a", prompt_hash := "p" }

/-- Second concrete task. -/
def c3Task2 : RTask := { id := "t2", title := "b", prompt_hash := "p" }

/-- A one-task runner state mid-run: current size 1 below a configured
maximum of 2, one zero-retry batch already in the streak. -/
def c3StB : RunnerState :=
  { pending := [c3Task1]
    attempts := fun _ => 0
    current_batch_size := 1
    success_streak := 1
    finalized := []
    written := []
    manual_reminders := 0 }

/-- A two-task runner state at current size 2 with fresh tasks. -/
def c3StE : RunnerState :=
  { pending := [c3Task1, c3Task2]
    attempts := fun _ => 0
    current_batch_size := 2
    success_streak := 0
    finalized := []
    written := []
    manual_reminders := 0 }

/-! ## Claims -/

/-- C9: the response-repair cascade recovers exactly the well-formed
object(s) from each of the four reply shapes — a plain JSON array, the
same array in a ```json fence, smashed adjacent objects, and an object
surrounded by prose.  (On any other input the embedding returns an
`Option`, i.e. parsed mappings or the explicit unparseable signal
`none`; there is no exception channel.) -/
theorem C9_parser_recovers_known_shapes :
    repair_and_parse_json "[\x7b\"a\":1\x7d]" =
      some (.jarr (.cons (.jobj (.cons "a" (.jnum 1) .nil)) .nil)) ∧
    repair_and_parse_json "```json\n[\x7b\"a\":1\x7d]\n```" =
      some (.jarr (.cons (.jobj (.cons "a" (.jnum 1) .nil)) .nil)) ∧
    repair_and_parse_json "\x7b\"a\":1\x7d\x7b\"a\":2\x7d" =
      some (.jarr (.cons (.jobj (.cons "a" (.jnum 1) .nil))
        (.cons (.jobj (.cons "a" (.jnum 2) .nil)) .nil))) ∧
    repair_and_parse_json "garbage \x7b\"a\":1\x7d more" =
      some (.jobj (.cons "a" (.jnum 1) .nil)) :=
  ⟨by decide, by decide, by decide, by decide⟩

/-- C1: evaluating `_normalize_payload` at the failing input `{}` (all
required scalar fields missing, so every one coerces to the empty
string): the record is KEPT — the function returns a normalized record
with every required scalar equal to `""` — although the claim (and the
source's own comment `# Final validation to ensure critical fields are
non-empty.`) says such a record is dropped.  The final validation only
checks `isinstance(..., str)`, which the coercion always guarantees. -/
theorem C1_empty_required_scalars_record_kept :
    normalize_payload (.jobj .nil) =
      some (JObj.ofList
        [("core_event", .jstr ""), ("characters", .jarr .nil),
         ("conflict_type", .jstr ""), ("potential_story_hooks", .jarr .nil),
         ("setting_hint", .jstr ""), ("stakes", .jstr ""),
         ("themes", .jarr .nil), ("tone", .jstr "")]) := by
  decide

/-- C7: a lock file whose age is at least `stale_seconds` is forcibly
removed and the lock is reclaimed by the new acquirer (the model has no
release action by the original holder at all), while an iteration of
`acquire` that sees a non-stale lock file either sleeps or raises
`FileLockTimeout`, in both cases leaving the lock file exactly in
place. -/
theorem C7_lock_staleness (stale_seconds deadline poll : Int) (fuel : Nat)
    (now m : Int) :
    (stale_seconds ≤ now - m →
      acquireLoop stale_seconds deadline poll (fuel + 2) now ⟨some m⟩ =
        some (true, ⟨some now⟩)) ∧
    (now - m < stale_seconds →
      acquireIter stale_seconds deadline now ⟨some m⟩ = .timedOut ⟨some m⟩ ∨
      acquireIter stale_seconds deadline now ⟨some m⟩ = .waitPoll ⟨some m⟩) := by
  constructor
  · intro h
    simp [acquireLoop, acquireIter, is_stale, h]
  · intro h
    have hns : ¬ stale_seconds ≤ now - m := not_le.mpr h
    by_cases hd : deadline ≤ now
    · left
      simp [acquireIter, is_stale, hns, hd]
    · right
      simp [acquireIter, is_stale, hns, hd]

/-- Witness for C7 at concrete values: a 10-second-old lock with
`stale_seconds = 5` is reclaimed; a 1-second-old one leads only to
sleeping or timing out, with the file untouched. -/
theorem C7_lock_staleness_witness :
    acquireLoop 5 100 1 2 10 ⟨some 0⟩ = some (true, ⟨some 10⟩) ∧
    (acquireIter 5 100 10 ⟨some 9⟩ = .timedOut ⟨some 9⟩ ∨
     acquireIter 5 100 10 ⟨some 9⟩ = .waitPoll ⟨some 9⟩) :=
  ⟨(C7_lock_staleness 5 100 1 0 10 0).1 (by decide),
   (C7_lock_staleness 5 100 1 0 10 9).2 (by decide)⟩

theorem write_batch_loop_no_lock_timeout (oracle : Nat → PersistOutcome) :
    ∀ remaining calls,
      (write_batch_loop oracle remaining calls).1 ≠
        Except.error WriterError.fileLockTimeout := by
  intro remaining
  induction remaining with
  | zero => intro calls; simp [write_batch_loop]
  | succ r ih =>
    intro calls
    cases h : oracle calls with
    | success n => simp [write_batch_loop, h]
    | lockTimeout =>
      by_cases hr : r = 0
      · simp [write_batch_loop, h, hr]
      · simp only [write_batch_loop, h]
        rw [if_neg hr]
        exact ih (calls + 1)
    | otherError =>
      by_cases hr : r = 0
      · simp [write_batch_loop, h, hr]
      · simp only [write_batch_loop, h]
        rw [if_neg hr]
        exact ih (calls + 1)

theorem write_batch_loop_calls_le (oracle : Nat → PersistOutcome) :
    ∀ remaining calls,
      (write_batch_loop oracle remaining calls).2 ≤ calls + remaining := by
  intro remaining
  induction remaining with
  | zero => intro calls; simp [write_batch_loop]
  | succ r ih =>
    intro calls
    cases h : oracle calls with
    | success n =>
      simp only [write_batch_loop, h]
      omega
    | lockTimeout =>
      by_cases hr : r = 0
      · simp only [write_batch_loop, h, hr]
        simp
      · simp only [write_batch_loop, h]
        rw [if_neg hr]
        have := ih (calls + 1)
        omega
    | otherError =>
      by_cases hr : r = 0
      · simp only [write_batch_loop, h, hr]
        simp
      · simp only [write_batch_loop, h]
        rw [if_neg hr]
        have := ih (calls + 1)
        omega

theorem write_batch_loop_all_timeouts (oracle : Nat → PersistOutcome)
    (hall : ∀ i, oracle i = .lockTimeout) :
    ∀ remaining calls, 1 ≤ remaining →
      write_batch_loop oracle remaining calls = (Except.ok 0, calls + remaining) := by
  intro remaining
  induction remaining with
  | zero => intro calls h; omega
  | succ r ih =>
    intro calls _
    by_cases hr : r = 0
    · simp [write_batch_loop, hall calls, hr]
    · simp only [write_batch_loop, hall calls]
      rw [if_neg hr, ih (calls + 1) (by omega)]
      simp only [Prod.mk.injEq]
      refine ⟨by simp, by omega⟩

/-- C8: the `_write_batch` retry loop makes at most `flush_retry_limit`
`_persist_records` calls, never lets `FileLockTimeout` escape to the
caller, and when every attempt times out on the lock it returns 0 (the
write is abandoned after logging), having used exactly the configured
number of attempts. -/
theorem C8_lock_timeout_contained :
    (∀ (flush_retry_limit : Nat) (oracle : Nat → PersistOutcome),
      (write_batch flush_retry_limit oracle).1 ≠
        Except.error WriterError.fileLockTimeout) ∧
    (∀ (flush_retry_limit : Nat) (oracle : Nat → PersistOutcome),
      (write_batch flush_retry_limit oracle).2 ≤ flush_retry_limit) ∧
    (∀ (flush_retry_limit : Nat) (oracle : Nat → PersistOutcome),
      1 ≤ flush_retry_limit → (∀ i, oracle i = .lockTimeout) →
      write_batch flush_retry_limit oracle = (Except.ok 0, flush_retry_limit)) := by
  refine ⟨fun limit oracle => write_batch_loop_no_lock_timeout oracle limit 0,
    fun limit oracle => ?_,
    fun limit oracle h1 hall => ?_⟩
  · have := write_batch_loop_calls_le oracle limit 0
    simpa [write_batch] using this
  · have := write_batch_loop_all_timeouts oracle hall limit 0 h1
    simpa [write_batch] using this

/-- Witness for C8 at `flush_retry_limit = 3` and an
always-lock-timeout store. -/
theorem C8_lock_timeout_contained_witness :
    (write_batch 3 (fun _ => PersistOutcome.lockTimeout)).1 ≠
      Except.error WriterError.fileLockTimeout ∧
    (write_batch 3 (fun _ => PersistOutcome.lockTimeout)).2 ≤ 3 ∧
    write_batch 3 (fun _ => PersistOutcome.lockTimeout) = (Except.ok 0, 3) :=
  ⟨C8_lock_timeout_contained.1 3 _,
   C8_lock_timeout_contained.2.1 3 _,
   C8_lock_timeout_contained.2.2 3 _ (by decide) (fun _ => rfl)⟩

/-- C2 counterexample: on a reply containing both a brace-delimited span
and a bracket-delimited span, `_trim_to_json` returns the OBJECT span
`\x7b"a":1\x7d`, not the array span `[2]` between the first `[` and the
last `]` that the claim says is preferred. -/
theorem C2_counterexample :
    trim_to_json "x \x7b\"a\":1\x7d y [2] z" = some "\x7b\"a\":1\x7d" ∧
    trim_to_json "x \x7b\"a\":1\x7d y [2] z" ≠ some "[2]" :=
  ⟨by decide, by decide⟩

/-- C2 amended: in the trimming step, when the stripped text does not
already begin and end with JSON delimiters, `_trim_to_json` trims to the
span between the first `\x7b` and the last `\x7d` whenever that span is
valid — the OBJECT span is preferred over the array span; the span
between the first `[` and the last `]` is used only when no opening
brace occurs at all. -/
theorem C2_amended (text : String) (l : List Char)
    (hstrip : pyStripList text.toList = l)
    (hne : l.isEmpty = false)
    (hdelim : ((l.headD ' ' = '[' || l.headD ' ' = lbrace) &&
               (l.getLastD ' ' = ']' || l.getLastD ' ' = rbrace)) = false) :
    (∀ i j, pyFind lbrace l = some i → pyRfind rbrace l = some j → i < j →
       (pyStripList (sliceIncl l i j)).isEmpty = false →
       trim_to_json text = some (String.mk (pyStripList (sliceIncl l i j)))) ∧
    (∀ i j, pyFind lbrace l = none →
       pyFind '[' l = some i → pyRfind ']' l = some j → i < j →
       (pyStripList (sliceIncl l i j)).isEmpty = false →
       trim_to_json text = some (String.mk (pyStripList (sliceIncl l i j)))) := by
  constructor
  · intro i j hobj hrbr hij hnonempty
    simp only [trim_to_json, hstrip, hne, Bool.false_eq_true, if_false, hdelim,
      trimCandidates, hobj, hrbr, hij, if_true, List.cons_append,
      List.filterMap_cons, hnonempty]
    rfl
  · intro i j hnoobj harr hrbr hij hnonempty
    simp only [trim_to_json, hstrip, hne, Bool.false_eq_true, if_false, hdelim,
      trimCandidates, hnoobj, harr, hrbr, hij, if_true, List.nil_append,
      List.filterMap_cons, hnonempty]
    rfl

/-- Witness for C2 amended: both spans present; the object span wins. -/
theorem C2_amended_witness :
    trim_to_json "a \x7b1\x7d c [2] d" = some "\x7b1\x7d" := by
  have h := (C2_amended "a \x7b1\x7d c [2] d"
      (pyStripList "a \x7b1\x7d c [2] d".toList) rfl (by decide) (by decide)).1
      2 4 (by decide) (by decide) (by decide) (by decide)
  simpa using h

/-- C6 counterexample: a `send_batch` call that recovers zero records (a
transport failure) on an active session whose headline counter is a
non-zero multiple of the compliance interval: the call returns `None`
yet the session history is NOT left exactly unchanged — the automatic
compliance reminder was appended before the request. -/
theorem C6_counterexample :
    (send_batch c6State ["headline"] .exc).1 = none ∧
    (send_batch c6State ["headline"] .exc).2.history ≠ c6State.history :=
  ⟨by decide, by decide⟩

/-- C6 amended: on an active session with a non-empty batch, the
user/assistant exchange is appended (through the bounded-history prune)
exactly when at least one record is recovered; when zero records are
recovered the history after the call equals the history after the
automatic compliance-reminder step that runs at the start of the call —
i.e. apart from that possible reminder, a total failure leaves the
history untouched. -/
theorem C6_amended (st : ConnState) (headlines : List String) (net : NetResult)
    (hne : headlines ≠ []) (hact : st.active = true) :
    ((send_batch st headlines net).1 = none →
      (send_batch st headlines net).2.history =
        (maybe_send_auto_compliance_reminder st).history) ∧
    (∀ rs, (send_batch st headlines net).1 = some rs →
      ((rs.filterMap id = [] →
         (send_batch st headlines net).2.history =
           (maybe_send_auto_compliance_reminder st).history) ∧
       (rs.filterMap id ≠ [] →
         ∃ u a,
           (send_batch st headlines net).2.history =
             prune_history (maybe_send_auto_compliance_reminder st).history_limit
               ((maybe_send_auto_compliance_reminder st).history ++ [u, a]) ∧
           u.role = "user" ∧ a.role = "assistant"))) := by
  cases headlines with
  | nil => exact absurd rfl hne
  | cons h0 hs =>
    simp only [send_batch, List.isEmpty_cons, Bool.false_eq_true, if_false]
    cases net with
    | exc =>
      refine ⟨fun _ => rfl, fun rs hrs => ?_⟩
      exact absurd hrs (by simp)
    | resp status body =>
      by_cases hst : status ≥ 400
      · simp only [if_pos hst]
        refine ⟨by trivial, fun rs hrs => ?_⟩
        exact absurd hrs (by simp)
      · simp only [if_neg hst]
        cases hex : extract_response_entries (pyStrip body) with
        | mk entriesO content =>
          cases entriesO with
          | none =>
            refine ⟨fun _ => rfl, fun rs hrs => ?_⟩
            exact absurd hrs (by simp)
          | some entries =>
            refine ⟨fun hnone => absurd hnone (by simp), fun rs hrs => ?_⟩
            simp only [Option.some.injEq] at hrs
            subst hrs
            constructor
            · intro hzero
              simp only [hzero, List.length_nil, gt_iff_lt, lt_irrefl, if_false]
              split <;> rfl
            · intro hpos
              have hlen : 0 < (((entries.take (h0 :: hs).length).map
                  (fun e => normalize_payload (.jobj e)) ++
                  List.replicate ((h0 :: hs).length - entries.length) none).filterMap id).length := by
                cases hfm : ((entries.take (h0 :: hs).length).map
                    (fun e => normalize_payload (.jobj e)) ++
                    List.replicate ((h0 :: hs).length - entries.length) none).filterMap id with
                | nil => exact absurd hfm hpos
                | cons a t => simp
              refine ⟨Msg.mk "user" (String.intercalate "\n"
                  ((h0 :: hs).enum.map (fun p =>
                    toString ((maybe_send_auto_compliance_reminder st).headline_counter
                      + 1 + p.1) ++ ". " ++ clean_prompt_text p.2))),
                Msg.mk "assistant" content, ?_, rfl, rfl⟩
              simp only [if_pos hlen]
              split <;> rfl

/-- Witness for C6 amended at the concrete state: a transport error
leaves the history equal to the post-reminder history. -/
theorem C6_amended_witness :
    (send_batch c6State ["headline"] .exc).2.history =
      (maybe_send_auto_compliance_reminder c6State).history :=
  (C6_amended c6State ["headline"] .exc (by decide) (by decide)).1 (by decide)

theorem maybe_reminder_array_warning (st : ConnState) :
    (maybe_send_auto_compliance_reminder st).array_warning_count =
      st.array_warning_count := by
  simp only [maybe_send_auto_compliance_reminder]
  split
  · rfl
  · split <;> rfl

/-- C10: `send_batch` on an active session returns `None` (request-level
failure) or a list of exactly `n` entries for `n` headlines; entry `i`
is the validated record for headline `i` (the normalization of parsed
entry `i`) or `None`, extras beyond `n` are discarded with the
multi-object warning counter incremented and never shifted onto other
positions; and for the empty headline list it returns `[]` with the
connector state (hence the session and HTTP layer) untouched. -/
theorem C10_send_batch_shape (st : ConnState) (headlines : List String)
    (net : NetResult) (hact : st.active = true) :
    (send_batch st [] net = (some [], st)) ∧
    (∀ rs, (send_batch st headlines net).1 = some rs →
      rs.length = headlines.length) ∧
    (∀ status body entries content, net = .resp status body → status < 400 →
      extract_response_entries (pyStrip body) = (some entries, content) →
      headlines ≠ [] →
      (send_batch st headlines net).1 =
        some ((entries.take headlines.length).map
            (fun e => normalize_payload (.jobj e)) ++
          List.replicate (headlines.length - entries.length) none) ∧
      (entries.length > headlines.length →
        (send_batch st headlines net).2.array_warning_count =
          st.array_warning_count + 1)) := by
  refine ⟨by simp [send_batch], ?_, ?_⟩
  · intro rs hrs
    cases headlines with
    | nil =>
      simp [send_batch] at hrs
      simp [← hrs]
    | cons h0 hs =>
      cases net with
      | exc =>
        simp only [send_batch, List.isEmpty_cons, Bool.false_eq_true, if_false] at hrs
        exact absurd hrs (by simp)
      | resp status body =>
        simp only [send_batch, List.isEmpty_cons, Bool.false_eq_true, if_false] at hrs
        by_cases hst : status ≥ 400
        · rw [if_pos hst] at hrs
          exact absurd hrs (by simp)
        · rw [if_neg hst] at hrs
          cases hex : extract_response_entries (pyStrip body) with
          | mk entriesO content =>
            rw [hex] at hrs
            cases entriesO with
            | none => exact absurd hrs (by simp)
            | some entries =>
              simp only [Option.some.injEq] at hrs
              subst hrs
              simp only [List.length_append, List.length_map, List.length_take,
                List.length_replicate]
              omega
  · intro status body entries content hnet hst hex hne
    subst hnet
    cases headlines with
    | nil => exact absurd rfl hne
    | cons h0 hs =>
      simp only [send_batch, List.isEmpty_cons, Bool.false_eq_true, if_false,
        if_neg (by omega : ¬ status ≥ 400), hex]
      refine ⟨by trivial, fun hextra => ?_⟩
      simp only [if_pos hextra]
      split <;> simp [maybe_reminder_array_warning]

/-- Witness for C10: an active session, two parsed entries for one
headline — the result is positional (`[validated entry 0]`), the extra
entry is dropped, and the warning counter is incremented; the empty
batch leaves the state untouched. -/
theorem C10_send_batch_shape_witness :
    (send_batch c6State [] (.resp 200 "ignored") = (some [], c6State)) ∧
    (send_batch c6State ["headline"]
        (.resp 200 "\x7b\"choices\":[\x7b\"message\":\x7b\"content\":\"[\x7b\\\"a\\\":1\x7d,\x7b\\\"a\\\":2\x7d]\"\x7d\x7d]\x7d")).2.array_warning_count
      = c6State.array_warning_count + 1 := by
  constructor
  · exact (C10_send_batch_shape c6State [] (.resp 200 "ignored") (by decide)).1
  · exact ((C10_send_batch_shape c6State ["headline"] _ (by decide)).2.2
      200 "\x7b\"choices\":[\x7b\"message\":\x7b\"content\":\"[\x7b\\\"a\\\":1\x7d,\x7b\\\"a\\\":2\x7d]\"\x7d\x7d]\x7d"
      [JObj.cons "a" (.jnum 1) .nil, JObj.cons "a" (.jnum 2) .nil]
      "[\x7b\"a\": 1\x7d,\x7b\"a\": 2\x7d]"
      rfl (by decide) (by decide) (by decide)).2 (by decide)

/-! Supporting lemmas for the runner step. -/

theorem routeFailed_no_shutdown (rl : Nat) (att : String → Nat) :
    ∀ q, routeFailed false rl att q =
      (q.filter (fun t => att t.id < rl),
       (q.filter (fun t => rl ≤ att t.id)).map (fun t => (t.id, false, att t.id))) := by
  intro q
  induction q with
  | nil => rfl
  | cons t rest ih =>
    simp only [routeFailed, ih, Bool.false_eq_true, if_false, List.filter_cons]
    by_cases h : att t.id < rl
    · simp [h, Nat.not_le.mpr h]
    · simp [h, Nat.le_of_not_lt h]

theorem bumpAttempts_not_mem : ∀ (batch : List RTask) (f : String → Nat)
    (tid : String), tid ∉ batch.map RTask.id → bumpAttempts batch f tid = f tid := by
  intro batch
  induction batch with
  | nil => intro f tid _; rfl
  | cons u us ih =>
    intro f tid h
    simp only [List.map_cons, List.mem_cons, not_or] at h
    show bumpAttempts us (fun x => if x = u.id then f x + 1 else f x) tid = f tid
    rw [ih _ tid h.2]
    simp [h.1]

theorem bumpAttempts_mem : ∀ (batch : List RTask) (f : String → Nat) (t : RTask),
    (batch.map RTask.id).Nodup → t ∈ batch →
    bumpAttempts batch f t.id = f t.id + 1 := by
  intro batch
  induction batch with
  | nil => intro f t _ h; cases h
  | cons u us ih =>
    intro f t hnd hmem
    simp only [List.map_cons, List.nodup_cons] at hnd
    show bumpAttempts us (fun x => if x = u.id then f x + 1 else f x) t.id =
      f t.id + 1
    cases List.mem_cons.mp hmem with
    | inl heq =>
      subst heq
      rw [bumpAttempts_not_mem us _ t.id hnd.1]
      simp
    | inr hmem' =>
      have hne : t.id ≠ u.id := by
        intro hcontra
        exact hnd.1 (hcontra ▸ List.mem_map_of_mem RTask.id hmem')
      rw [ih _ t hnd.2 hmem']
      simp [hne]

theorem zipReplicateRetry : ∀ (batch : List RTask),
    ((batch.zip (List.replicate batch.length (none : Option JObj))).filter
      (fun p => p.2 = none)).map Prod.fst = batch := by
  intro batch
  induction batch with
  | nil => rfl
  | cons t rest ih =>
    simp only [List.length_cons, List.replicate_succ, List.zip_cons_cons,
      List.filter_cons]
    simp [ih]

theorem retryQueue_requestError (st : RunnerState) :
    retryQueueOf st .requestError = currentBatch st := by
  simp only [retryQueueOf, batchPairs, alignedResponses]
  exact zipReplicateRetry _

theorem retryQueue_parseFailure (st : RunnerState) :
    retryQueueOf st .parseFailure = currentBatch st := by
  simp only [retryQueueOf, batchPairs, alignedResponses]
  exact zipReplicateRetry _

theorem zipAllSomeRetry : ∀ (l : List RTask) (ps : List (Option JObj)),
    (∀ x ∈ ps, x.isSome) →
    ((l.zip ps).filter (fun p => p.2 = none)).map Prod.fst = [] := by
  intro l
  induction l with
  | nil => intro ps _; rfl
  | cons t rest ih =>
    intro ps hall
    cases ps with
    | nil => rfl
    | cons x xs =>
      have hx := hall x (List.mem_cons_self x xs)
      cases x with
      | none => simp at hx
      | some v =>
        simp only [List.zip_cons_cons, List.filter_cons]
        simp [ih xs (fun y hy => hall y (List.mem_cons_of_mem _ hy))]

theorem retryQueue_ok_empty (st : RunnerState) (ps : List (Option JObj))
    (hlen : ps.length = (currentBatch st).length) (hall : ∀ x ∈ ps, x.isSome) :
    retryQueueOf st (.ok ps) = [] := by
  simp only [retryQueueOf, batchPairs, alignedResponses]
  rw [if_pos hlen]
  exact zipAllSomeRetry _ _ hall

theorem retryQueue_subset_batch {st : RunnerState} {outcome : BatchOutcome}
    {t : RTask} (h : t ∈ retryQueueOf st outcome) : t ∈ currentBatch st := by
  simp only [retryQueueOf, List.mem_map] at h
  obtain ⟨p, hp, hpt⟩ := h
  have hz := List.mem_filter.mp hp
  have := List.of_mem_zip hz.1
  exact hpt ▸ this.1

theorem nodup_ids_batch {st : RunnerState}
    (h : (st.pending.map RTask.id).Nodup) :
    ((currentBatch st).map RTask.id).Nodup :=
  h.sublist ((List.take_sublist _ _).map RTask.id)

theorem currentBatch_ne_nil {st : RunnerState} (h : st.pending ≠ []) :
    currentBatch st ≠ [] := by
  cases hp : st.pending with
  | nil => exact absurd hp h
  | cons a l =>
    simp only [currentBatch, hp]
    obtain ⟨k, hk⟩ : ∃ k, max 1 (min st.current_batch_size (a :: l).length) = k + 1 := by
      refine ⟨max 1 (min st.current_batch_size (a :: l).length) - 1, ?_⟩
      omega
    rw [hk]
    simp

theorem processBatch_attempts (rl mb : Nat) (sh : Bool) (st : RunnerState)
    (outcome : BatchOutcome) :
    (processBatch rl mb sh st outcome).attempts =
      bumpAttempts (currentBatch st) st.attempts := by
  simp only [processBatch]
  split
  · split <;> rfl
  · split <;> rfl

/-- C3 counterexample: a batch-level transport error after which the
current batch size is NOT halved.  With `retry_limit = 1`, a two-task
batch (current size 2 = configured maximum) fails wholesale with a
request error; both tasks have reached the retry limit, so no retry
remains pending and the halving branch is skipped: the size stays 2,
where the claim requires 1. -/
theorem C3_counterexample :
    (processBatch 1 2 false (initRunnerState [c3Task1, c3Task2] 2)
      .requestError).current_batch_size = 2 ∧
    (processBatch 1 2 false (initRunnerState [c3Task1, c3Task2] 2)
      .requestError).finalized = [("t1", false, 1), ("t2", false, 1)] :=
  ⟨by decide, by decide⟩

/-- C3 amended: the current batch size starts at the configured maximum
(clamped to at least 1); a second consecutive zero-retry batch grows it
by 1 when below the maximum, a first one only starts the streak; the
size never exceeds the maximum; a batch-level transport/HTTP error
halves it (floor 1) and resets the streak provided the whole batch
failed, at least one failed item is still below the retry limit and
shutdown is not signalled (otherwise the size is left unchanged, as the
counterexample shows); a parse failure never shrinks it. -/
theorem C3_amended :
    (∀ (tasks : List RTask) (configured_max : Nat),
      (initRunnerState tasks configured_max).current_batch_size =
        max 1 configured_max) ∧
    (∀ (rl mb : Nat) (st : RunnerState) (ps : List (Option JObj)),
      1 ≤ st.success_streak → st.current_batch_size < mb →
      ps.length = (currentBatch st).length → (∀ x ∈ ps, x.isSome) →
      (processBatch rl mb false st (.ok ps)).current_batch_size =
        st.current_batch_size + 1 ∧
      (processBatch rl mb false st (.ok ps)).success_streak = 0) ∧
    (∀ (rl mb : Nat) (st : RunnerState) (ps : List (Option JObj)),
      st.success_streak = 0 →
      ps.length = (currentBatch st).length → (∀ x ∈ ps, x.isSome) →
      (processBatch rl mb false st (.ok ps)).current_batch_size =
        st.current_batch_size ∧
      (processBatch rl mb false st (.ok ps)).success_streak = 1) ∧
    (∀ (rl mb : Nat) (sh : Bool) (st : RunnerState) (outcome : BatchOutcome),
      st.current_batch_size ≤ mb →
      (processBatch rl mb sh st outcome).current_batch_size ≤ mb) ∧
    (∀ (rl mb : Nat) (st : RunnerState) (t : RTask),
      (st.pending.map RTask.id).Nodup → t ∈ currentBatch st →
      st.attempts t.id + 1 < rl → 1 < st.current_batch_size →
      (processBatch rl mb false st .requestError).current_batch_size =
        st.current_batch_size / 2 ∧
      1 ≤ (processBatch rl mb false st .requestError).current_batch_size ∧
      (processBatch rl mb false st .requestError).success_streak = 0) ∧
    (∀ (rl mb : Nat) (sh : Bool) (st : RunnerState),
      st.pending ≠ [] →
      (processBatch rl mb sh st .parseFailure).current_batch_size =
        st.current_batch_size) := by
  refine ⟨fun tasks b => rfl, ?_, ?_, ?_, ?_, ?_⟩
  · intro rl mb st ps hstreak hlt hlen hall
    have hrq := retryQueue_ok_empty st ps hlen hall
    have h2 : st.success_streak + 1 ≥ 2 := by omega
    simp only [processBatch, hrq, List.isEmpty_nil, if_true]
    split
    · refine ⟨?_, rfl⟩
      show min mb (st.current_batch_size + 1) = st.current_batch_size + 1
      omega
    · rename_i hcond
      simp [h2, hlt] at hcond
  · intro rl mb st ps hzero hlen hall
    have hrq := retryQueue_ok_empty st ps hlen hall
    simp only [processBatch, hrq, List.isEmpty_nil, if_true, hzero]
    split
    · rename_i hcond
      simp at hcond
    · exact ⟨rfl, rfl⟩
  · intro rl mb sh st outcome hle
    simp only [processBatch]
    split
    · split
      · show min mb (st.current_batch_size + 1) ≤ mb
        omega
      · exact hle
    · split
      · split
        · rename_i hhalf
          simp only [Bool.and_eq_true, decide_eq_true_eq] at hhalf
          show max 1 (st.current_batch_size / 2) ≤ mb
          omega
        · exact hle
      · exact hle
  · intro rl mb st t hnodup hmem hbelow hgt1
    have hrq := retryQueue_requestError st
    have hbne : currentBatch st ≠ [] := List.ne_nil_of_mem hmem
    have hqne : retryQueueOf st .requestError ≠ [] := by rw [hrq]; exact hbne
    have hroute := routeFailed_no_shutdown rl
      (bumpAttempts (currentBatch st) st.attempts) (retryQueueOf st .requestError)
    have hatt : bumpAttempts (currentBatch st) st.attempts t.id =
        st.attempts t.id + 1 :=
      bumpAttempts_mem _ _ t (nodup_ids_batch hnodup) hmem
    have hstill : t ∈ (routeFailed false rl
        (bumpAttempts (currentBatch st) st.attempts)
        (retryQueueOf st .requestError)).1 := by
      rw [hroute]
      refine List.mem_filter.mpr ⟨hrq ▸ hmem, ?_⟩
      simp only [hatt, decide_eq_true_eq]
      omega
    have hstillne : ((routeFailed false rl
        (bumpAttempts (currentBatch st) st.attempts)
        (retryQueueOf st .requestError)).1).isEmpty = false := by
      rcases hlst : (routeFailed false rl
          (bumpAttempts (currentBatch st) st.attempts)
          (retryQueueOf st .requestError)).1 with _ | ⟨a, l⟩
      · rw [hlst] at hstill; cases hstill
      · rfl
    simp only [processBatch]
    rw [if_neg (by simp [List.isEmpty_iff, hqne])]
    simp only [hstillne, Bool.not_false, Bool.and_true, if_true]
    rw [if_pos]
    · refine ⟨?_, ?_, by trivial⟩
      · show max 1 (st.current_batch_size / 2) = st.current_batch_size / 2
        omega
      · show 1 ≤ max 1 (st.current_batch_size / 2)
        omega
    · simp only [Bool.and_eq_true, decide_eq_true_eq]
      refine ⟨⟨by trivial, by rw [hrq]⟩, hgt1⟩
  · intro rl mb sh st hne
    have hrq := retryQueue_parseFailure st
    have hbne := currentBatch_ne_nil hne
    have hqne : retryQueueOf st .parseFailure ≠ [] := by rw [hrq]; exact hbne
    simp only [processBatch]
    rw [if_neg (by simp [List.isEmpty_iff, hqne])]
    split
    · rfl
    · rfl

/-- Witness for C3 amended: the initial size is the (clamped) configured
maximum; a second consecutive zero-retry batch grows 1 → 2; a
whole-batch request error with a live retry halves 2 → 1; a parse
failure leaves the size unchanged. -/
theorem C3_amended_witness :
    (initRunnerState [] 5).current_batch_size = max 1 5 ∧
    (processBatch 3 2 false c3StB (.ok [some JObj.nil])).current_batch_size = 1 + 1 ∧
    (processBatch 2 2 false c3StE .requestError).current_batch_size = 2 / 2 ∧
    (processBatch 3 2 false c3StB .parseFailure).current_batch_size = 1 :=
  ⟨C3_amended.1 [] 5,
   (C3_amended.2.1 3 2 c3StB [some JObj.nil] (by decide) (by decide) (by decide)
     (by decide)).1,
   (C3_amended.2.2.2.2.1 2 2 c3StE c3Task1 (by decide) (by decide) (by decide)
     (by decide)).1,
   C3_amended.2.2.2.2.2 3 2 false c3StB (by decide)⟩

/-- C5: in a non-shutdown iteration (task ids unique), every batch
item's attempt count is incremented on that attempt; the new pending
queue is a prefix of re-queued failures followed by the untouched fresh
work; every failed item still below `retry_limit` is in that front
prefix, and every failed item at or above the limit is finalized as
failed with its attempt count reported in the metrics events — no
failed item disappears unreported. -/
theorem C5_retry_routing (rl mb : Nat) (st : RunnerState) (outcome : BatchOutcome)
    (hnodup : (st.pending.map RTask.id).Nodup) :
    (∀ t ∈ currentBatch st,
      (processBatch rl mb false st outcome).attempts t.id =
        st.attempts t.id + 1) ∧
    (∃ pre,
      (processBatch rl mb false st outcome).pending =
        pre ++ remainingAfterBatch st ∧
      ∀ t ∈ retryQueueOf st outcome,
        (st.attempts t.id + 1 < rl → t ∈ pre) ∧
        (rl ≤ st.attempts t.id + 1 →
          (t.id, false, st.attempts t.id + 1) ∈
            (processBatch rl mb false st outcome).finalized)) := by
  constructor
  · intro t ht
    rw [processBatch_attempts]
    exact bumpAttempts_mem _ _ t (nodup_ids_batch hnodup) ht
  · refine ⟨(routeFailed false rl (bumpAttempts (currentBatch st) st.attempts)
      (retryQueueOf st outcome)).1, ?_, ?_⟩
    · cases hq : (retryQueueOf st outcome).isEmpty with
      | true =>
        have hqnil : retryQueueOf st outcome = [] := by
          cases hl : retryQueueOf st outcome with
          | nil => rfl
          | cons a l => rw [hl] at hq; cases hq
        simp only [processBatch, hqnil, List.isEmpty_nil, if_true]
        split <;> simp [routeFailed]
      | false =>
        simp only [processBatch]
        rw [if_neg (by simp [hq])]
        split
        · rfl
        · rename_i hcond
          simp only [Bool.not_false, Bool.and_true, Bool.not_eq_true] at hcond
          have : (routeFailed false rl
              (bumpAttempts (currentBatch st) st.attempts)
              (retryQueueOf st outcome)).1 = [] := by
            cases hl : (routeFailed false rl
                (bumpAttempts (currentBatch st) st.attempts)
                (retryQueueOf st outcome)).1 with
            | nil => rfl
            | cons a l => rw [hl] at hcond; cases hcond
          rw [this]
          rfl
    · intro t ht
      have hqne : retryQueueOf st outcome ≠ [] := by
        intro hcontra
        rw [hcontra] at ht
        cases ht
      have hqfalse : (retryQueueOf st outcome).isEmpty = false := by
        cases hl : retryQueueOf st outcome with
        | nil => exact absurd hl hqne
        | cons a l => rfl
      have hatt : bumpAttempts (currentBatch st) st.attempts t.id =
          st.attempts t.id + 1 :=
        bumpAttempts_mem _ _ t (nodup_ids_batch hnodup)
          (retryQueue_subset_batch ht)
      have hfin : (processBatch rl mb false st outcome).finalized =
          (st.finalized ++ (succeededOf st outcome).map
            (fun u => (u.id, true, bumpAttempts (currentBatch st) st.attempts u.id))) ++
          (routeFailed false rl (bumpAttempts (currentBatch st) st.attempts)
            (retryQueueOf st outcome)).2 := by
        simp only [processBatch]
        rw [if_neg (by simp [hqfalse])]
        split <;> rfl
      constructor
      · intro hbelow
        rw [routeFailed_no_shutdown]
        refine List.mem_filter.mpr ⟨ht, ?_⟩
        simp only [hatt, decide_eq_true_eq]
        omega
      · intro habove
        rw [hfin]
        refine List.mem_append_right _ ?_
        rw [routeFailed_no_shutdown]
        refine List.mem_map.mpr ⟨t, List.mem_filter.mpr ⟨ht, ?_⟩, by rw [hatt]⟩
        simp only [hatt, decide_eq_true_eq]
        exact habove

/-- Witness for C5: one fresh task fails a parse-only batch below the
retry limit and is re-queued at the front; with `retry_limit = 1` the
same failure is finalized and reported. -/
theorem C5_retry_routing_witness :
    (∀ t ∈ currentBatch c3StB,
      (processBatch 3 2 false c3StB .parseFailure).attempts t.id =
        c3StB.attempts t.id + 1) ∧
    (∃ pre,
      (processBatch 3 2 false c3StB .parseFailure).pending =
        pre ++ remainingAfterBatch c3StB ∧
      ∀ t ∈ retryQueueOf c3StB .parseFailure,
        (c3StB.attempts t.id + 1 < 3 → t ∈ pre) ∧
        (3 ≤ c3StB.attempts t.id + 1 →
          (t.id, false, c3StB.attempts t.id + 1) ∈
            (processBatch 3 2 false c3StB .parseFailure).finalized)) :=
  C5_retry_routing 3 2 c3StB .parseFailure (by decide)

/-! Supporting lemmas for merge commutativity (C4): Python `==` is
reflexive on well-formed (unique-keyed) values, and small dict-equality
helpers. -/

theorem mem_keys_of_mem_toList : ∀ (o : JObj) (k : String) (v : JVal),
    (k, v) ∈ o.toList → k ∈ o.keys
| .nil, k, v, h => absurd h (by simp [JObj.toList])
| .cons k0 v0 t, k, v, hmem => by
  simp only [JObj.toList, List.mem_cons] at hmem
  simp only [JObj.keys, List.mem_cons]
  cases hmem with
  | inl heq => exact Or.inl (congrArg Prod.fst heq)
  | inr hmem' => exact Or.inr (mem_keys_of_mem_toList t k v hmem')

theorem get_of_mem_noDup : ∀ (o : JObj), noDupKeys o.keys = true →
    ∀ k v, (k, v) ∈ o.toList → JObj.get k o = some v
| .nil, _, k, v, h => absurd h (by simp [JObj.toList])
| .cons k0 v0 t, hnd, k, v, hmem => by
  simp only [JObj.keys, noDupKeys, Bool.and_eq_true, Bool.not_eq_true'] at hnd
  simp only [JObj.toList, List.mem_cons] at hmem
  simp only [JObj.get]
  cases hmem with
  | inl heq =>
    rw [Prod.mk.injEq] at heq
    obtain ⟨rfl, rfl⟩ := heq
    simp
  | inr hmem' =>
    by_cases hk : k = k0
    · subst hk
      have hkin : k ∈ t.keys := mem_keys_of_mem_toList t k v hmem'
      have : t.keys.contains k = true := List.elem_eq_true_of_mem hkin
      rw [this] at hnd
      cases hnd.1
    · rw [if_neg hk]
      exact get_of_mem_noDup t hnd.2 k v hmem'

mutual

theorem pyEq_self : ∀ v : JVal, wfB v = true → pyEq v v = true
| .jnull, _ => rfl
| .jbool b, _ => by simp [pyEq]
| .jnum n, _ => by simp [pyEq]
| .jstr s, _ => by simp [pyEq]
| .jarr a, h => by
  simp only [wfB] at h
  simp only [pyEq]
  exact pyEqArr_self a h
| .jobj o, h => by
  simp only [wfB, Bool.and_eq_true] at h
  simp only [pyEq, Bool.and_eq_true]
  exact ⟨by simp, pyEqObjSub_lookup o o h.2
    (fun kv hkv => get_of_mem_noDup o h.1 kv.1 kv.2 hkv)⟩

theorem pyEqArr_self : ∀ a : JArr, wfArr a = true → pyEqArr a a = true
| .nil, _ => rfl
| .cons v t, h => by
  simp only [wfArr, Bool.and_eq_true] at h
  simp only [pyEqArr, Bool.and_eq_true]
  exact ⟨pyEq_self v h.1, pyEqArr_self t h.2⟩

theorem pyEqObjSub_lookup : ∀ (t b : JObj), wfObj t = true →
    (∀ kv ∈ t.toList, JObj.get kv.1 b = some kv.2) → pyEqObjSub t b = true
| .nil, _, _, _ => rfl
| .cons k v t, b, hw, hl => by
  simp only [wfObj, Bool.and_eq_true] at hw
  simp only [pyEqObjSub, Bool.and_eq_true]
  refine ⟨?_, pyEqObjSub_lookup t b hw.2
    (fun kv hkv => hl kv (List.mem_cons_of_mem _ hkv))⟩
  rw [hl (k, v) (List.mem_cons_self _ _)]
  exact pyEq_self v hw.1

end

theorem wf_get_value : ∀ (o : JObj), wfObj o = true →
    ∀ k v, JObj.get k o = some v → wfB v = true
| .nil, _, k, v, h => absurd h (by simp [JObj.get])
| .cons k0 v0 t, hw, k, v, h => by
  simp only [wfObj, Bool.and_eq_true] at hw
  simp only [JObj.get] at h
  by_cases hk : k = k0
  · rw [if_pos hk] at h
    cases h
    exact hw.1
  · rw [if_neg hk] at h
    exact wf_get_value t hw.2 k v h

theorem wf_getD (o : JObj) (h : wfB (.jobj o) = true) (k : String) (d : JVal)
    (hd : wfB d = true) : wfB (JObj.getD k d o) = true := by
  simp only [wfB, Bool.and_eq_true] at h
  simp only [JObj.getD]
  cases hg : JObj.get k o with
  | none => exact hd
  | some v => exact wf_get_value o h.2 k v hg

theorem mem_keys_erase : ∀ (o : JObj) (k x : String),
    x ∈ (JObj.erase k o).keys → x ∈ o.keys
| .nil, k, x, h => absurd h (by simp [JObj.erase, JObj.keys])
| .cons k0 v0 t, k, x, h => by
  simp only [JObj.erase] at h
  by_cases hk : k = k0
  · rw [if_pos hk] at h
    exact List.mem_cons_of_mem _ h
  · rw [if_neg hk] at h
    simp only [JObj.keys, List.mem_cons] at h ⊢
    cases h with
    | inl heq => exact Or.inl heq
    | inr h' => exact Or.inr (mem_keys_erase t k x h')

theorem noDup_keys_erase : ∀ (o : JObj) (k : String),
    noDupKeys o.keys = true → noDupKeys (JObj.erase k o).keys = true
| .nil, k, _ => rfl
| .cons k0 v0 t, k, h => by
  simp only [JObj.keys, noDupKeys, Bool.and_eq_true, Bool.not_eq_true'] at h
  simp only [JObj.erase]
  by_cases hk : k = k0
  · rw [if_pos hk]
    exact h.2
  · rw [if_neg hk]
    simp only [JObj.keys, noDupKeys, Bool.and_eq_true, Bool.not_eq_true']
    refine ⟨?_, noDup_keys_erase t k h.2⟩
    cases hc : ((JObj.erase k t).keys.contains k0) with
    | false => rfl
    | true =>
      have hmem : k0 ∈ (JObj.erase k t).keys := List.mem_of_elem_eq_true hc
      have : t.keys.contains k0 = true :=
        List.elem_eq_true_of_mem (mem_keys_erase t k k0 hmem)
      rw [this] at h
      cases h.1

theorem wfObj_erase : ∀ (o : JObj) (k : String),
    wfObj o = true → wfObj (JObj.erase k o) = true
| .nil, k, _ => rfl
| .cons k0 v0 t, k, h => by
  simp only [wfObj, Bool.and_eq_true] at h
  simp only [JObj.erase]
  by_cases hk : k = k0
  · rw [if_pos hk]
    exact h.2
  · rw [if_neg hk]
    simp only [wfObj, Bool.and_eq_true]
    exact ⟨h.1, wfObj_erase t k h.2⟩

theorem wf_erase (o : JObj) (k : String) (h : wfB (.jobj o) = true) :
    wfB (.jobj (JObj.erase k o)) = true := by
  simp only [wfB, Bool.and_eq_true] at h ⊢
  exact ⟨noDup_keys_erase o k h.1, wfObj_erase o k h.2⟩

theorem pyEq_obj1 (k : String) (v w : JVal) (h : pyEq v w = true) :
    pyEq (.jobj (JObj.cons k v .nil)) (.jobj (JObj.cons k w .nil)) = true := by
  simp [pyEq, pyEqObjSub, JObj.get, JObj.length, h]

theorem pyEq_obj2_same (k1 k2 : String) (v1 v2 w1 w2 : JVal) (hk : k1 ≠ k2)
    (h1 : pyEq v1 w1 = true) (h2 : pyEq v2 w2 = true) :
    pyEq (.jobj (JObj.cons k1 v1 (JObj.cons k2 v2 .nil)))
         (.jobj (JObj.cons k1 w1 (JObj.cons k2 w2 .nil))) = true := by
  simp [pyEq, pyEqObjSub, JObj.get, JObj.length, hk, Ne.symm hk, h1, h2]

theorem pyEq_obj2_swap (k1 k2 : String) (v1 v2 w1 w2 : JVal) (hk : k1 ≠ k2)
    (h1 : pyEq v1 w1 = true) (h2 : pyEq v2 w2 = true) :
    pyEq (.jobj (JObj.cons k1 v1 (JObj.cons k2 v2 .nil)))
         (.jobj (JObj.cons k2 w2 (JObj.cons k1 w1 .nil))) = true := by
  simp [pyEq, pyEqObjSub, JObj.get, JObj.length, hk, Ne.symm hk, h1, h2]

theorem getD_nil (k : String) (d : JVal) : JObj.getD k d .nil = d := rfl

theorem getD_cons (k k' : String) (d v : JVal) (t : JObj) :
    JObj.getD k d (.cons k' v t) =
      if k = k' then v else JObj.getD k d t := by
  simp only [JObj.getD, JObj.get]
  split <;> rfl

theorem wf_mergedTitle (x y : JVal) (hx : wfB x = true) (hy : wfB y = true) :
    wfB (mergedTitle x y) = true := by
  simp only [mergedTitle]
  split
  · exact hx
  · split
    · exact hy
    · exact hx

/-- Shape of the document after the first merge into a missing file:
the record's truthy title (or `""`), and one model entry holding the
title-stripped payload under the prompt hash. -/
theorem write_result_empty (t k : String) (A : JObj) :
    write_result none t k A =
      .jobj (JObj.cons "title"
        (if pyTruthy (JObj.getD "title" (.jstr "") A)
          then JObj.getD "title" (.jstr "") A else .jstr "")
        (JObj.cons "llm_models"
          (.jobj (JObj.cons t
            (.jobj (JObj.cons k (.jobj (JObj.erase "title" A)) .nil)) .nil))
          .nil)) := by
  have hempty : pyTruthy (.jstr "") = false := rfl
  by_cases hta : pyTruthy (JObj.getD "title" (.jstr "") A)
  · simp [write_result, persist_records, hta, hempty, getD_nil, getD_cons,
      JObj.get, JObj.set, JObj.toList, JObj.ofList]
  · simp [write_result, persist_records, hta, hempty, getD_nil, getD_cons,
      JObj.get, JObj.set, JObj.toList, JObj.ofList]

/-- Shape of the document after a second merge into a one-model
document: the existing title wins when truthy, and the new record lands
in the existing model entry (same target) or a fresh one appended after
it. -/
theorem write_result_second (t t' : String) (T : JVal) (E : JObj) (B : JObj)
    (kB : String) :
    write_result (some (.jobj (JObj.cons "title" T
        (JObj.cons "llm_models"
          (.jobj (JObj.cons t (.jobj E) .nil)) .nil)))) t' kB B =
      .jobj (JObj.cons "title" (mergedTitle T (JObj.getD "title" (.jstr "") B))
        (JObj.cons "llm_models" (.jobj
          (if t' = t then
            JObj.cons t (.jobj (JObj.set kB (.jobj (JObj.erase "title" B)) E)) .nil
          else
            JObj.cons t (.jobj E)
              (JObj.cons t'
                (.jobj (JObj.cons kB (.jobj (JObj.erase "title" B)) .nil)) .nil)))
          .nil)) := by
  have hempty : pyTruthy (.jstr "") = false := rfl
  by_cases ht : t' = t <;>
    by_cases hT : pyTruthy T <;>
      by_cases hTb : pyTruthy (JObj.getD "title" (.jstr "") B) <;>
        simp [write_result, persist_records, mergedTitle, ht, hT, hTb, hempty,
          getD_nil, getD_cons, JObj.get, JObj.set, JObj.toList, JObj.ofList]

/-- C4 counterexample: two records with distinct non-empty titles under
distinct (target, dedup_key) pairs; the two write orders produce
documents that differ (Python `==` is `False`): the surviving title is
that of whichever record was written first. -/
theorem C4_counterexample :
    pyEq
      (write_result (some (write_result none "m1" "h1"
          (JObj.ofList [("title", .jstr "x"), ("core_event", .jstr "e1")])))
        "m2" "h2"
        (JObj.ofList [("title", .jstr "y"), ("core_event", .jstr "e2")]))
      (write_result (some (write_result none "m2" "h2"
          (JObj.ofList [("title", .jstr "y"), ("core_event", .jstr "e2")])))
        "m1" "h1"
        (JObj.ofList [("title", .jstr "x"), ("core_event", .jstr "e1")]))
      = false := by decide

/-- C4 amended: for well-formed records written under distinct (target,
dedup_key) pairs whose titles do not conflict (equal titles, or at most
one non-empty), writing A then B produces the same final document
(Python `==` on the parsed JSON, i.e. content equality with dict order
ignored) as writing B then A, starting from a missing document. -/
theorem C4_amended (t1 k1 t2 k2 : String) (A B : JObj)
    (hwA : wfB (.jobj A) = true) (hwB : wfB (.jobj B) = true)
    (hpair : ¬(t1 = t2 ∧ k1 = k2))
    (htitle : JObj.getD "title" (.jstr "") A = JObj.getD "title" (.jstr "") B ∨
      pyTruthy (JObj.getD "title" (.jstr "") A) = false ∨
      pyTruthy (JObj.getD "title" (.jstr "") B) = false) :
    pyEq (write_result (some (write_result none t1 k1 A)) t2 k2 B)
         (write_result (some (write_result none t2 k2 B)) t1 k1 A) = true := by
  have hwpA := wf_erase A "title" hwA
  have hwpB := wf_erase B "title" hwB
  have hwTa : wfB (JObj.getD "title" (.jstr "") A) = true :=
    wf_getD A hwA "title" _ rfl
  have hwTb : wfB (JObj.getD "title" (.jstr "") B) = true :=
    wf_getD B hwB "title" _ rfl
  rw [write_result_empty t1 k1 A, write_result_empty t2 k2 B,
    write_result_second, write_result_second]
  have hempty : pyTruthy (.jstr "") = false := rfl
  have htitleEq :
      mergedTitle (if pyTruthy (JObj.getD "title" (.jstr "") A)
          then JObj.getD "title" (.jstr "") A else .jstr "")
        (JObj.getD "title" (.jstr "") B) =
      mergedTitle (if pyTruthy (JObj.getD "title" (.jstr "") B)
          then JObj.getD "title" (.jstr "") B else .jstr "")
        (JObj.getD "title" (.jstr "") A) := by
    by_cases ha : pyTruthy (JObj.getD "title" (.jstr "") A)
    · by_cases hb : pyTruthy (JObj.getD "title" (.jstr "") B)
      · have hab : JObj.getD "title" (.jstr "") A =
            JObj.getD "title" (.jstr "") B := by
          rcases htitle with h | h | h
          · exact h
          · rw [ha] at h; cases h
          · rw [hb] at h; cases h
        simp [mergedTitle, ha, hb, hab]
      · simp [mergedTitle, ha, hb, hempty]
    · by_cases hb : pyTruthy (JObj.getD "title" (.jstr "") B)
      · simp [mergedTitle, ha, hb, hempty]
      · simp [mergedTitle, ha, hb, hempty]
  rw [htitleEq]
  have hwX : wfB (mergedTitle (if pyTruthy (JObj.getD "title" (.jstr "") B)
      then JObj.getD "title" (.jstr "") B else .jstr "")
      (JObj.getD "title" (.jstr "") A)) = true := by
    refine wf_mergedTitle _ _ ?_ hwTa
    split
    · exact hwTb
    · rfl
  by_cases ht : t2 = t1
  · have hk : k1 ≠ k2 := fun hkk => hpair ⟨ht.symm, hkk⟩
    subst ht
    rw [if_pos rfl, if_pos rfl]
    apply pyEq_obj2_same _ _ _ _ _ _ (by decide) (pyEq_self _ hwX)
    apply pyEq_obj1
    have hset1 : JObj.set k2 (.jobj (JObj.erase "title" B))
        (JObj.cons k1 (.jobj (JObj.erase "title" A)) .nil) =
        JObj.cons k1 (.jobj (JObj.erase "title" A))
          (JObj.cons k2 (.jobj (JObj.erase "title" B)) .nil) := by
      simp [JObj.set, Ne.symm hk]
    have hset2 : JObj.set k1 (.jobj (JObj.erase "title" A))
        (JObj.cons k2 (.jobj (JObj.erase "title" B)) .nil) =
        JObj.cons k2 (.jobj (JObj.erase "title" B))
          (JObj.cons k1 (.jobj (JObj.erase "title" A)) .nil) := by
      simp [JObj.set, hk]
    rw [hset1, hset2]
    exact pyEq_obj2_swap k1 k2 _ _ _ _ hk (pyEq_self _ hwpA) (pyEq_self _ hwpB)
  · have ht' : ¬ t1 = t2 := fun h => ht h.symm
    rw [if_neg ht, if_neg ht']
    apply pyEq_obj2_same _ _ _ _ _ _ (by decide) (pyEq_self _ hwX)
    refine pyEq_obj2_swap t1 t2 _ _ _ _ ht' (pyEq_self _ ?_) (pyEq_self _ ?_)
    · simp only [wfB, Bool.and_eq_true] at hwpA
      simp [wfB, wfObj, noDupKeys, JObj.keys, hwpA.1, hwpA.2]
    · simp only [wfB, Bool.and_eq_true] at hwpB
      simp [wfB, wfObj, noDupKeys, JObj.keys, hwpB.1, hwpB.2]

/-- Witness for C4 amended: same-title records under distinct targets
commute. -/
theorem C4_amended_witness :
    pyEq
      (write_result (some (write_result none "m1" "h1"
          (JObj.ofList [("title", .jstr "x"), ("core_event", .jstr "e1")])))
        "m2" "h2"
        (JObj.ofList [("title", .jstr "x"), ("core_event", .jstr "e2")]))
      (write_result (some (write_result none "m2" "h2"
          (JObj.ofList [("title", .jstr "x"), ("core_event", .jstr "e2")])))
        "m1" "h1"
        (JObj.ofList [("title", .jstr "x"), ("core_event", .jstr "e1")]))
      = true :=
  C4_amended "m1" "h1" "m2" "h2"
    (JObj.ofList [("title", .jstr "x"), ("core_event", .jstr "e1")])
    (JObj.ofList [("title", .jstr "x"), ("core_event", .jstr "e2")])
    (by decide) (by decide) (by decide) (by decide)

end LLMPlotBot
